import Mathlib

-- Shallow embedding of the JS-NeuralNetwork multilayer-perceptron engine.
-- JavaScript numbers are modelled as rationals.  The transcendental functions
-- of the host Math library (and the NaN sentinel) are external collaborators
-- and are supplied as an abstract parameter bundle `MathPrimitives`.

/-- External host environment of the engine: `Math.exp`, `Math.atan`,
`Math.sin`, `Math.cos` and the sentinel `Number.NaN`, modelled abstractly. -/
structure MathPrimitives where
  exp : ℚ → ℚ
  atan : ℚ → ℚ
  sin : ℚ → ℚ
  cos : ℚ → ℚ
  nan : ℚ

/-- Catalogue of activation functions of the repository.  Each constructor
corresponds to one `ActivationFunction` subclass; `RectifiedLinearUnit`
carries its leak parameter (the JS constructor stores `parameter || 0`, so a
missing argument yields the parameter `0`). -/
inductive ActivationFunction where
  | ArcTangent
  | BinaryStep
  | GaussianFunction
  | HyperbolicTangent
  | Identity
  | LogisticFunction
  | RectifiedLinearUnit (parameter : ℚ)
  | SinusoidFunction
  deriving DecidableEq

/-- `evaluate(x)` of each activation function, as written in the respective
`src/activation` file. -/
def ActivationFunction.evaluate (m : MathPrimitives) : ActivationFunction → ℚ → ℚ
  | .ArcTangent, x => m.atan x
  | .BinaryStep, x => if x < 0 then 0 else 1
  | .GaussianFunction, x => m.exp (-(x ^ 2))
  | .HyperbolicTangent, x => (m.exp x - m.exp (-x)) / (m.exp x + m.exp (-x))
  | .Identity, x => x
  | .LogisticFunction, x => 1 / (1 + m.exp (-x))
  | .RectifiedLinearUnit p, x => if x < 0 then p * x else x
  | .SinusoidFunction, x => m.sin x

/-- `evaluateDerivative(x)` of each activation function.  `BinaryStep` returns
`Number.NaN` at `0`, modelled by the abstract `m.nan`. -/
def ActivationFunction.evaluateDerivative (m : MathPrimitives) : ActivationFunction → ℚ → ℚ
  | .ArcTangent, x => 1 / (x ^ 2 + 1)
  | .BinaryStep, x => if x ≠ 0 then 0 else m.nan
  | .GaussianFunction, x => -2 * x * ActivationFunction.evaluate m .GaussianFunction x
  | .HyperbolicTangent, x => 1 - ActivationFunction.evaluate m .HyperbolicTangent x ^ 2
  | .Identity, _ => 1
  | .LogisticFunction, x =>
      ActivationFunction.evaluate m .LogisticFunction x *
        (1 - ActivationFunction.evaluate m .LogisticFunction x)
  | .RectifiedLinearUnit p, x => if x < 0 then p else 1
  | .SinusoidFunction, x => m.cos x

/-- `ActivationFunction.prototype.toJSON` returns `this.constructor.name`:
only the class name is recorded, the ReLU leak parameter is dropped. -/
def ActivationFunction.toJSON : ActivationFunction → String
  | .ArcTangent => "ArcTangent"
  | .BinaryStep => "BinaryStep"
  | .GaussianFunction => "GaussianFunction"
  | .HyperbolicTangent => "HyperbolicTangent"
  | .Identity => "Identity"
  | .LogisticFunction => "LogisticFunction"
  | .RectifiedLinearUnit _ => "RectifiedLinearUnit"
  | .SinusoidFunction => "SinusoidFunction"

/-- The `createActivationFunctionFromName` helper of
`FeedforwardNeuralNetwork.fromJson`: maps a recorded name back to a fresh
activation function instance, calling every constructor without arguments
(so `RectifiedLinearUnit` gets parameter `0`); an unknown name throws. -/
def createActivationFunctionFromName (name : String) : Except String ActivationFunction :=
  match name with
  | "ArcTangent" => .ok .ArcTangent
  | "BinaryStep" => .ok .BinaryStep
  | "GaussianFunction" => .ok .GaussianFunction
  | "HyperbolicTangent" => .ok .HyperbolicTangent
  | "Identity" => .ok .Identity
  | "LogisticFunction" => .ok .LogisticFunction
  | "RectifiedLinearUnit" => .ok (.RectifiedLinearUnit 0)
  | "SinusoidFunction" => .ok .SinusoidFunction
  | _ => .error ("Undefined activation function `" ++ name ++ "`")

-- Data model.  A connection's target neuron is not stored explicitly:
-- `_createConnections` wires connection j of every neuron to neuron j of the
-- immediately following layer (source neurons outer, target neurons inner),
-- so the target is recovered positionally throughout.

/-- A weighted edge (`Connection.js`): current `_weight` and the accumulator
`_weightUpdatePending` of deferred updates. -/
structure Connection where
  weight : ℚ
  weightUpdatePending : ℚ
  deriving DecidableEq

/-- A neuron (`Neuron.js`): transient `_input` accumulator, last `_activation`,
error signal `_delta`, and the ordered outgoing `_connections` (connection j
targets neuron j of the following layer). -/
structure Neuron where
  input : ℚ
  activation : ℚ
  delta : ℚ
  connections : List Connection
  deriving DecidableEq

/-- A layer (`Layer.js`): ordered neurons and one shared activation function.
The last layer of a network is an `OutputLayer` whose neurons are
`OutputNeuron`s; network operations dispatch on position accordingly. -/
structure Layer where
  neurons : List Neuron
  activationFunction : ActivationFunction
  deriving DecidableEq

/-- A network (`NeuralNetwork.js`): ordered layers (input, hidden, output),
the learning rate and the optional seed. -/
structure Network where
  layers : List Layer
  learningRate : ℚ
  seed : Option ℕ
  deriving DecidableEq

def emptyLayer : Layer := { neurons := [], activationFunction := .Identity }

def Layer.size (l : Layer) : ℕ := l.neurons.length

/-- `Connection.prototype.updateWeight`: add to `_weight` if immediate, else
accumulate into `_weightUpdatePending`. -/
def Connection.updateWeight (c : Connection) (addend : ℚ) (immediate : Bool) : Connection :=
  if immediate then { c with weight := c.weight + addend }
  else { c with weightUpdatePending := c.weightUpdatePending + addend }

/-- `Connection.prototype.releaseWeightUpdates`: commit the pending update and
reset the accumulator. -/
def Connection.releaseWeightUpdates (c : Connection) : Connection :=
  { weight := c.weight + c.weightUpdatePending, weightUpdatePending := 0 }

/-- `Neuron.prototype.reset`: zero `_input` and `_activation` (delta kept). -/
def Neuron.reset (n : Neuron) : Neuron := { n with input := 0, activation := 0 }

/-- `Neuron.prototype.feed`: accumulate into `_input`. -/
def Neuron.feed (n : Neuron) (value : ℚ) : Neuron := { n with input := n.input + value }

def Layer.reset (l : Layer) : Layer := { l with neurons := l.neurons.map Neuron.reset }

/-- `NeuralNetwork.prototype.reset`: reset every layer. -/
def Network.reset (net : Network) : Network := { net with layers := net.layers.map Layer.reset }

-- Forward pass.

/-- Fan-out part of `Neuron.prototype.propagate`: feed `activation * weight`
into each connection's target, i.e. positionally into the following layer's
neurons.  Leftover targets (beyond the connection list) are untouched. -/
def feedTargets (a : ℚ) : List Connection → List Neuron → List Neuron
  | _, [] => []
  | [], t :: ts => t :: ts
  | c :: cs, t :: ts => t.feed (a * c.weight) :: feedTargets a cs ts

/-- `Neuron.prototype.propagate`: set `_activation` from the accumulated
`_input`, then fan the activation out into the target neurons. -/
def Neuron.propagate (m : MathPrimitives) (af : ActivationFunction) (n : Neuron)
    (targets : List Neuron) : Neuron × List Neuron :=
  let a := af.evaluate m n.input
  ({ n with activation := a }, feedTargets a n.connections targets)

/-- `Layer.prototype.propagateAllNeurons` over the neuron list, threading the
following layer's neurons through the per-neuron fan-outs in index order. -/
def propagateNeurons (m : MathPrimitives) (af : ActivationFunction) :
    List Neuron → List Neuron → List Neuron × List Neuron
  | [], ts => ([], ts)
  | n :: ns, ts =>
      let p := n.propagate m af ts
      let rest := propagateNeurons m af ns p.2
      (p.1 :: rest.1, rest.2)

def Layer.propagateAllNeurons (m : MathPrimitives) (l : Layer) (targets : List Neuron) :
    Layer × List Neuron :=
  let p := propagateNeurons m l.activationFunction l.neurons targets
  ({ l with neurons := p.1 }, p.2)

/-- The `_feed` loop `for k: this.getLayer(k).propagateAllNeurons()`: each
layer is propagated in creation order, its fan-out accumulating into the
following layer before that one is propagated. -/
def propagateLayers (m : MathPrimitives) : Layer → List Layer → List Layer
  | l, [] => [(l.propagateAllNeurons m []).1]
  | l, l2 :: rest =>
      let p := l.propagateAllNeurons m l2.neurons
      p.1 :: propagateLayers m { l2 with neurons := p.2 } rest

/-- Message thrown by `_feed` on an input size mismatch. -/
def sizeMismatchInput (layerSize inputLen : ℕ) : String :=
  "Size of input layer (`" ++ toString layerSize ++ "`) and supplied input (`" ++
    toString inputLen ++ "`) must match"

/-- The input-feeding loop of `_feed`: `inputLayer.getNeuron(i).feed(input[i])`
for every input-layer index (only reached when the lengths match). -/
def feedInputs : List Neuron → List ℚ → List Neuron
  | [], _ => []
  | n :: ns, [] => n :: ns
  | n :: ns, v :: vs => n.feed v :: feedInputs ns vs

def Network.inputLayerSize (net : Network) : ℕ := (net.layers.headD emptyLayer).size

/-- `FeedforwardNeuralNetwork.prototype._feed` on a network that has already
been reset: validate the input length, feed the input into the input layer,
then propagate every layer in creation order.  The Option result is the
thrown message, if any; the returned network is the state at that point
(mutations before a throw persist, as for a JS object). -/
def Network.feedAfterReset (m : MathPrimitives) (net : Network) (input : List ℚ) :
    Network × Option String :=
  let s := net.inputLayerSize
  if input.length ≠ s then (net, some (sizeMismatchInput s input.length))
  else
    match net.layers with
    | [] => (net, none)
    | l0 :: rest =>
        ({ net with layers :=
            propagateLayers m ({ l0 with neurons := feedInputs l0.neurons input }) rest }, none)

/-- `_feed(input)` begins with `this.reset()` and only then validates the
input size, so the reset happens even when the call subsequently throws. -/
def Network.feed (m : MathPrimitives) (net : Network) (input : List ℚ) :
    Network × Option String :=
  Network.feedAfterReset m net.reset input

def Network.outputLayer (net : Network) : Layer := net.layers.getLastD emptyLayer

/-- `NeuralNetwork.prototype._getOutput`: the output-layer activations. -/
def Network.getOutput (net : Network) : List ℚ :=
  net.outputLayer.neurons.map Neuron.activation

/-- `NeuralNetwork.prototype.predict`: run the forward pass, then collect the
output.  A thrown message surfaces as `.error`; the network state at the
throw is returned alongside. -/
def Network.predict (m : MathPrimitives) (net : Network) (input : List ℚ) :
    Except String (List ℚ) × Network :=
  match net.feed m input with
  | (net1, some e) => (.error e, net1)
  | (net1, none) => (.ok net1.getOutput, net1)

-- Backward pass.

/-- `OutputNeuron.prototype.updateDelta`: delta from the derivative at the
accumulated input times `calculateError(desiredOutput)` which is
`desiredOutput - activation`. -/
def OutputNeuron.updateDelta (m : MathPrimitives) (af : ActivationFunction)
    (n : Neuron) (desired : ℚ) : Neuron :=
  { n with delta := af.evaluateDerivative m n.input * (desired - n.activation) }

/-- Message thrown by `OutputLayer.prototype.updateDeltas` on a size
mismatch. -/
def sizeMismatchOutput (outLen numNeurons : ℕ) : String :=
  "Size of desired output (`" ++ toString outLen ++ "`) and number of output neurons (`" ++
    toString numNeurons ++ "`) must match"

/-- `OutputLayer.prototype.updateDeltas`: validate the desired-output length,
then update every output neuron's delta from its desired value. -/
def OutputLayer.updateDeltas (m : MathPrimitives) (l : Layer) (desired : List ℚ) :
    Layer × Option String :=
  if desired.length ≠ l.size then (l, some (sizeMismatchOutput desired.length l.size))
  else
    let ns := List.zipWith (fun n d => OutputNeuron.updateDelta m l.activationFunction n d)
      l.neurons desired
    ({ l with neurons := ns }, none)

/-- `Neuron.prototype.calculateError`: sum of `getWeightedDelta()` over the
outgoing connections, i.e. of `targetNeuron.delta * weight` with connection j
targeting neuron j of the following layer. -/
def Neuron.calculateError (n : Neuron) (next : List Neuron) : ℚ :=
  (List.zipWith (fun c t => t.delta * c.weight) n.connections next).sum

/-- `Neuron.prototype.updateDelta` (plain neuron): derivative at the input
times the accumulated downstream error. -/
def Neuron.updateDelta (m : MathPrimitives) (af : ActivationFunction)
    (next : List Neuron) (n : Neuron) : Neuron :=
  { n with delta := af.evaluateDerivative m n.input * n.calculateError next }

/-- `Layer.prototype.updateDeltas` (plain layer): update every neuron's delta,
reading the following layer's (already current) deltas. -/
def Layer.updateDeltas (m : MathPrimitives) (l : Layer) (next : List Neuron) : Layer :=
  { l with neurons := l.neurons.map (Neuron.updateDelta m l.activationFunction next) }

/-- The hidden-layer loop of `_backpropagate` runs from the last hidden layer
down to layer index 1; each layer reads the already-updated deltas of its
successor (`next` is the updated output layer for the last hidden layer). -/
def updateDeltasBackwards (m : MathPrimitives) : List Layer → Layer → List Layer
  | [], _ => []
  | l :: rest, next =>
      let rest2 := updateDeltasBackwards m rest next
      l.updateDeltas m (rest2.headD next).neurons :: rest2

/-- `NeuralNetwork.prototype._backpropagate`: output layer first, then the
hidden layers in reverse order; layer 0 (input layer) is never updated.  A
network without layers would crash in JS (`getOutputLayer()` is undefined)
and is modelled as a throw; it is never constructed. -/
def Network.backpropagate (m : MathPrimitives) (net : Network) (desired : List ℚ) :
    Network × Option String :=
  match net.layers.getLast? with
  | none => (net, some "TypeError: no output layer")
  | some out =>
      match OutputLayer.updateDeltas m out desired with
      | (_, some e) => (net, some e)
      | (out2, none) =>
          match net.layers.dropLast with
          | [] => ({ net with layers := [out2] }, none)
          | l0 :: hidden =>
              ({ net with layers := l0 :: updateDeltasBackwards m hidden out2 ++ [out2] }, none)

-- Weight updates.

/-- The loop of `Neuron.prototype.updateWeightsAtConnections`: for every
connection, `update = learningRate * targetNeuron.delta * activation` applied
via `updateWeight(update, immediate)`; the target of connection j is neuron j
of the following layer. -/
def updateConnectionWeights (lr : ℚ) (immediate : Bool) (a : ℚ) :
    List Connection → List Neuron → List Connection
  | [], _ => []
  | c :: cs, [] => c :: cs
  | c :: cs, t :: ts =>
      c.updateWeight (lr * t.delta * a) immediate :: updateConnectionWeights lr immediate a cs ts

def Neuron.updateWeightsAtConnections (lr : ℚ) (immediate : Bool) (next : List Neuron)
    (n : Neuron) : Neuron :=
  { n with connections := updateConnectionWeights lr immediate n.activation n.connections next }

/-- `Layer.prototype.updateWeightsInLayer`: delegate to every neuron. -/
def Layer.updateWeightsInLayer (lr : ℚ) (immediate : Bool) (l : Layer)
    (next : List Neuron) : Layer :=
  { l with neurons := l.neurons.map (Neuron.updateWeightsAtConnections lr immediate next) }

/-- The loop of `_updateWeightsInNetwork`: every layer except the output layer
is updated, reading the following layer's deltas. -/
def updateWeightsLayers (lr : ℚ) (immediate : Bool) : List Layer → List Layer
  | [] => []
  | [l] => [l]
  | l :: l2 :: rest => l.updateWeightsInLayer lr immediate l2.neurons ::
      updateWeightsLayers lr immediate (l2 :: rest)

def Network.updateWeightsInNetwork (net : Network) (immediate : Bool) : Network :=
  { net with layers := updateWeightsLayers net.learningRate immediate net.layers }

def Layer.releaseWeightUpdatesInLayer (l : Layer) : Layer :=
  { l with neurons := l.neurons.map (fun n =>
      { n with connections := n.connections.map Connection.releaseWeightUpdates }) }

/-- The loop of `_releaseWeightUpdatesInNetwork`: every layer except the
output layer releases its deferred updates. -/
def releaseLayers : List Layer → List Layer
  | [] => []
  | [l] => [l]
  | l :: l2 :: rest => l.releaseWeightUpdatesInLayer :: releaseLayers (l2 :: rest)

def Network.releaseWeightUpdatesInNetwork (net : Network) : Network :=
  { net with layers := releaseLayers net.layers }

/-- `OutputLayer.prototype.calculateSumSquaredError`: sum over the output
neurons of the square of `calculateError(desiredOutput[i])`, which is
`desiredOutput[i] - activation`. -/
def OutputLayer.calculateSumSquaredError (l : Layer) (desired : List ℚ) : ℚ :=
  (List.zipWith (fun n d => (d - n.activation) ^ 2) l.neurons desired).sum

-- Training.

/-- `NeuralNetwork.prototype.train` (online): feed, backpropagate, compute the
sum-squared error, update the weights immediately, return the mean squared
error.  Thrown messages propagate with the state at the throw. -/
def Network.train (m : MathPrimitives) (net : Network) (input desired : List ℚ) :
    Except String ℚ × Network :=
  let outSize := net.outputLayer.size
  match net.feed m input with
  | (net1, some e) => (.error e, net1)
  | (net1, none) =>
      match net1.backpropagate m desired with
      | (net2, some e) => (.error e, net2)
      | (net2, none) =>
          let sse := OutputLayer.calculateSumSquaredError net2.outputLayer desired
          (.ok (sse / (outSize : ℚ)), net2.updateWeightsInNetwork true)

/-- Message thrown by `trainBatch` when the pattern counts differ. -/
def countMismatchMsg (a b : ℕ) : String :=
  "Number of input patterns (`" ++ toString a ++ "`) and output patterns (`" ++
    toString b ++ "`) must match"

/-- JS `x || d` defaulting of an optional numeric parameter: an absent value
and the falsy value `0` both select the default. -/
def jsOrRat (v : Option ℚ) (d : ℚ) : ℚ :=
  match v with
  | none => d
  | some x => if x = 0 then d else x

/-- JS `x || d` defaulting of the optional iteration count (`iterations || 1`
turns an explicit `0` into `1`). -/
def jsOrNat (v : Option ℕ) (d : ℕ) : ℕ :=
  match v with
  | none => d
  | some x => if x = 0 then d else x

/-- The constructor's `options.seed || undefined`: a falsy seed (absent or
`0`) is stored as undefined. -/
def jsOrSeed (v : Option ℕ) : Option ℕ :=
  match v with
  | none => none
  | some x => if x = 0 then none else some x

/-- The loop guard `error > errorThreshold`, where `error` may still be
`Number.POSITIVE_INFINITY` (modelled as `none`, greater than everything). -/
def gtThreshold : Option ℚ → ℚ → Bool
  | none, _ => true
  | some e, t => decide (e > t)

/-- The per-pattern loop of one `trainBatch` iteration: feed, backpropagate,
accumulate the deferred weight updates, then add this pattern's sum-squared
error to the accumulator.  A throw aborts the whole call with the state at
the throw (no release happens). -/
def Network.trainBatchPairsLoop (m : MathPrimitives) :
    List (List ℚ × List ℚ) → ℚ → Network → Except String ℚ × Network
  | [], acc, net => (.ok acc, net)
  | (i, d) :: rest, acc, net =>
      match net.feed m i with
      | (net1, some e) => (.error e, net1)
      | (net1, none) =>
          match net1.backpropagate m d with
          | (net2, some e) => (.error e, net2)
          | (net2, none) =>
              let net3 := net2.updateWeightsInNetwork false
              Network.trainBatchPairsLoop m rest
                (acc + OutputLayer.calculateSumSquaredError net3.outputLayer d) net3

/-- The outer iteration loop of `trainBatch`: while iterations remain and the
error exceeds the threshold, run one pass over all patterns, convert the
accumulated error to a mean, and release the deferred weight updates. -/
def Network.trainBatchGo (m : MathPrimitives) (pairs : List (List ℚ × List ℚ))
    (numPairs outSize : ℕ) (threshold : ℚ) :
    ℕ → Option ℚ → Network → Except String (Option ℚ) × Network
  | 0, err, net => (.ok err, net)
  | fuel + 1, err, net =>
      if gtThreshold err threshold then
        match Network.trainBatchPairsLoop m pairs 0 net with
        | (.error e, net1) => (.error e, net1)
        | (.ok acc, net1) =>
            let meanErr := acc / ((numPairs : ℚ) * (outSize : ℚ))
            Network.trainBatchGo m pairs numPairs outSize threshold fuel (some meanErr)
              net1.releaseWeightUpdatesInNetwork
      else (.ok err, net)

/-- `NeuralNetwork.prototype.trainBatch`: validate the pattern counts, default
the optional parameters by JS falsiness (`iterations || 1`,
`errorThreshold || 0.005`), then iterate with the error initialised to
`Number.POSITIVE_INFINITY` (`none`).  The returned value is the final error
(`none` would mean positive infinity). -/
def Network.trainBatch (m : MathPrimitives) (net : Network)
    (inputs desiredOutputs : List (List ℚ)) (iterationsOpt : Option ℕ)
    (thresholdOpt : Option ℚ) : Except String (Option ℚ) × Network :=
  if inputs.length ≠ desiredOutputs.length then
    (.error (countMismatchMsg inputs.length desiredOutputs.length), net)
  else
    let iters := jsOrNat iterationsOpt 1
    let threshold := jsOrRat thresholdOpt (5 / 1000)
    Network.trainBatchGo m (inputs.zip desiredOutputs) inputs.length
      net.outputLayer.size threshold iters none net

-- Construction.

/-- The options bag of the network constructor. -/
structure Options where
  seed : Option ℕ := none
  learningRate : Option ℚ := none
  hiddenLayerActivationFunction : Option ActivationFunction := none
  outputLayerActivationFunction : Option ActivationFunction := none
  deriving DecidableEq

/-- State consumed by `Neuron.prototype.connectTo`: the process-wide queue
`Neuron.preDefinedWeights` and the position in the seeded PRNG's draw
sequence. -/
structure WeightState where
  preDefinedWeights : List ℚ
  prngIndex : ℕ
  deriving DecidableEq

/-- Initial-weight selection of `Neuron.prototype.connectTo`: if the shared
queue is non-empty, `pop()` removes and returns its last element; otherwise a
fresh draw `getRandomFloat(0, 0.3) - 0.15` is consumed (`prng i` stands for
the i-th value of the external seeded `getRandomFloat(0, 0.3)`). -/
def popWeight (prng : ℕ → ℚ) (st : WeightState) : ℚ × WeightState :=
  match st.preDefinedWeights.getLast? with
  | some w => (w, { st with preDefinedWeights := st.preDefinedWeights.dropLast })
  | none => (prng st.prngIndex - 3 / 20, { st with prngIndex := st.prngIndex + 1 })

/-- The inner loop of `_createConnections`: one source neuron is connected to
each of the `count` neurons of the following layer in index order, consuming
one initial weight per connection. -/
def mkConnections (prng : ℕ → ℚ) : ℕ → WeightState → List Connection × WeightState
  | 0, st => ([], st)
  | count + 1, st =>
      let p := popWeight prng st
      let rest := mkConnections prng count p.2
      ({ weight := p.1, weightUpdatePending := 0 } :: rest.1, rest.2)

/-- The middle loop of `_createConnections`: source neurons outer (in index
order), target neurons inner. -/
def connectLayerPair (prng : ℕ → ℚ) :
    List Neuron → ℕ → WeightState → List Neuron × WeightState
  | [], _, st => ([], st)
  | n :: ns, targetCount, st =>
      let p := mkConnections prng targetCount st
      let rest := connectLayerPair prng ns targetCount p.2
      ({ n with connections := n.connections ++ p.1 } :: rest.1, rest.2)

/-- The outer loop of `_createConnections`: adjacent layer pairs in creation
order (input to first hidden, ..., last to output). -/
def createConnectionsLayers (prng : ℕ → ℚ) : List Layer → WeightState → List Layer
  | [], _ => []
  | [l], _ => [l]
  | l :: l2 :: rest, st =>
      let p := connectLayerPair prng l.neurons l2.size st
      { l with neurons := p.1 } :: createConnectionsLayers prng (l2 :: rest) p.2

def freshNeuron : Neuron := { input := 0, activation := 0, delta := 0, connections := [] }

def freshLayer (size : ℕ) (af : ActivationFunction) : Layer :=
  { neurons := List.replicate size freshNeuron, activationFunction := af }

/-- `new FeedforwardNeuralNetwork(inputNeurons, hiddenNeurons, outputNeurons,
options)`: the base constructor builds the input layer (always with the
`Identity` activation), the hidden layers (configured activation, default
`HyperbolicTangent`), and the output layer (likewise defaulted); then
`_createConnections` wires the dense topology.  The process-wide pending
weights queue and the seeded PRNG are passed explicitly. -/
def FeedforwardNeuralNetwork.construct (inputNeurons : ℕ) (hiddenNeurons : List ℕ)
    (outputNeurons : ℕ) (options : Options) (preDefinedWeights : List ℚ)
    (prng : ℕ → ℚ) : Network :=
  let haf := options.hiddenLayerActivationFunction.getD .HyperbolicTangent
  let oaf := options.outputLayerActivationFunction.getD .HyperbolicTangent
  let layers0 := freshLayer inputNeurons .Identity ::
    (hiddenNeurons.map (fun k => freshLayer k haf)) ++ [freshLayer outputNeurons oaf]
  { layers := createConnectionsLayers prng layers0
      { preDefinedWeights := preDefinedWeights, prngIndex := 0 },
    learningRate := jsOrRat options.learningRate (3 / 10),
    seed := jsOrSeed options.seed }

-- Serialization.

/-- JSON shape of a connection. -/
structure ConnectionJson where
  weight : ℚ
  deriving DecidableEq

/-- JSON shape of a neuron. -/
structure NeuronJson where
  connections : List ConnectionJson
  deriving DecidableEq

/-- JSON shape of a layer. -/
structure LayerJson where
  neurons : List NeuronJson
  activationFunction : String
  deriving DecidableEq

/-- JSON shape of a network snapshot. -/
structure NetworkJson where
  layers : List LayerJson
  learningRate : ℚ
  seed : Option ℕ
  deriving DecidableEq

def Connection.toJSON (c : Connection) : ConnectionJson := { weight := c.weight }

def Neuron.toJSON (n : Neuron) : NeuronJson :=
  { connections := n.connections.map Connection.toJSON }

def Layer.toJSON (l : Layer) : LayerJson :=
  { neurons := l.neurons.map Neuron.toJSON,
    activationFunction := l.activationFunction.toJSON }

/-- `NeuralNetwork.prototype.toJSON`: layers in order, learning rate, seed. -/
def Network.toJSON (net : Network) : NetworkJson :=
  { layers := net.layers.map Layer.toJSON,
    learningRate := net.learningRate,
    seed := net.seed }

/-- The `createWeightsListFromLayer` helper of `fromJson`: the layer's
connection weights flattened neuron by neuron, each neuron's connections in
order (the left-to-right construction order). -/
def createWeightsListFromLayer (l : LayerJson) : List ℚ :=
  (l.neurons.map (fun n => n.connections.map (fun c => c.weight))).flatten

/-- `FeedforwardNeuralNetwork.fromJson`: split the recorded layers into input,
hidden and output; recover the layer sizes; flatten all connection weights in
input-hidden-output order into `Neuron.preDefinedWeights`; then construct a
fresh network whose `connectTo` calls consume that queue.  The hidden
activation is taken from the first hidden layer's recorded name (`Identity`
when there is none), the output activation from the output layer's name; an
unknown name throws.  A snapshot with fewer than two layers would crash in
JS (`pop()` on the emptied list leaves `outputLayer` undefined). -/
def FeedforwardNeuralNetwork.fromJson (prng : ℕ → ℚ) (data : NetworkJson) :
    Except String Network :=
  match data.layers with
  | [] => .error "TypeError: no layers in snapshot"
  | inputLayer :: rest =>
      match rest.getLast? with
      | none => .error "TypeError: no output layer in snapshot"
      | some outputLayer =>
          let hiddenLayers := rest.dropLast
          let inputNeurons := inputLayer.neurons.length
          let hiddenNeurons := hiddenLayers.map (fun l => l.neurons.length)
          let outputNeurons := outputLayer.neurons.length
          let allWeights := createWeightsListFromLayer inputLayer ++
            (hiddenLayers.map createWeightsListFromLayer).flatten ++
            createWeightsListFromLayer outputLayer
          let hiddenName := if hiddenLayers.length > 0 then
              (hiddenLayers.headD { neurons := [], activationFunction := "" }).activationFunction
            else "Identity"
          match createActivationFunctionFromName hiddenName with
          | .error e => .error e
          | .ok haf =>
              match createActivationFunctionFromName outputLayer.activationFunction with
              | .error e => .error e
              | .ok oaf =>
                  .ok (FeedforwardNeuralNetwork.construct inputNeurons hiddenNeurons
                    outputNeurons
                    { seed := data.seed, learningRate := some data.learningRate,
                      hiddenLayerActivationFunction := some haf,
                      outputLayerActivationFunction := some oaf }
                    allWeights prng)

-- Observation projections used by the theorems.

/-- All connection weights, layer by layer, neuron by neuron. -/
def Network.weightData (net : Network) : List (List (List ℚ)) :=
  net.layers.map (fun l => l.neurons.map (fun n => n.connections.map Connection.weight))

/-- All connection (weight, pendingUpdate) pairs. -/
def Network.connData (net : Network) : List (List (List (ℚ × ℚ))) :=
  net.layers.map (fun l => l.neurons.map (fun n =>
    n.connections.map (fun c => (c.weight, c.weightUpdatePending))))

/-- All neuron deltas. -/
def Network.deltaData (net : Network) : List (List ℚ) :=
  net.layers.map (fun l => l.neurons.map Neuron.delta)

/-- All neuron activations. -/
def Network.activationData (net : Network) : List (List ℚ) :=
  net.layers.map (fun l => l.neurons.map Neuron.activation)

/-- All neuron inputs. -/
def Network.inputData (net : Network) : List (List ℚ) :=
  net.layers.map (fun l => l.neurons.map Neuron.input)

/-- The activation function of every layer, in order. -/
def Network.afData (net : Network) : List ActivationFunction :=
  net.layers.map Layer.activationFunction

/-- Whether every connection's pending update is zero (true at construction
and after every release). -/
def Network.pendingAllZero (net : Network) : Bool :=
  net.layers.all (fun l => l.neurons.all (fun n =>
    n.connections.all (fun c => c.weightUpdatePending == 0)))

/-- Per-neuron data untouched by the forward pass: delta and connections. -/
def Neuron.backboneF (n : Neuron) : ℚ × List Connection := (n.delta, n.connections)

/-- Per-layer data untouched by the forward pass. -/
def Layer.backboneF (l : Layer) : ActivationFunction × List (ℚ × List Connection) :=
  (l.activationFunction, l.neurons.map Neuron.backboneF)

/-- Network data untouched by the forward pass: everything except the neuron
inputs and activations. -/
def Network.backboneF (net : Network) : List (ActivationFunction × List (ℚ × List Connection)) :=
  net.layers.map Layer.backboneF

/-- Per-neuron data untouched by the backward pass: input, activation and
connections. -/
def Neuron.backboneB (n : Neuron) : ℚ × ℚ × List Connection :=
  (n.input, n.activation, n.connections)

def Layer.backboneB (l : Layer) : ActivationFunction × List (ℚ × ℚ × List Connection) :=
  (l.activationFunction, l.neurons.map Neuron.backboneB)

/-- Network data untouched by the backward pass: everything except deltas. -/
def Network.backboneB (net : Network) : List (ActivationFunction × List (ℚ × ℚ × List Connection)) :=
  net.layers.map Layer.backboneB

/-- Per-neuron scalar fields, untouched by weight updates and releases. -/
def Neuron.scalarFields (n : Neuron) : ℚ × ℚ × ℚ := (n.input, n.activation, n.delta)

def Layer.scalarData (l : Layer) : ActivationFunction × List (ℚ × ℚ × ℚ) :=
  (l.activationFunction, l.neurons.map Neuron.scalarFields)

/-- Network data untouched by weight updates and releases: everything except
the connection lists. -/
def Network.scalarData (net : Network) : List (ActivationFunction × List (ℚ × ℚ × ℚ)) :=
  net.layers.map Layer.scalarData

-- Concrete inputs used by witnesses and counterexamples.  The math bundle is
-- irrelevant for Identity activations; any concrete instance does.

def mZero : MathPrimitives :=
  { exp := fun _ => 0, atan := fun _ => 0, sin := fun _ => 0, cos := fun _ => 0, nan := 0 }

/-- Options selecting the Identity activation for hidden and output layers. -/
def identityOptions : Options :=
  { seed := none, learningRate := none,
    hiddenLayerActivationFunction := some .Identity,
    outputLayerActivationFunction := some .Identity }

/-- A 1-input, 0-hidden, 1-output Identity network whose single connection
has weight 1 (supplied through the pending-weights queue). -/
def exNet1 : Network :=
  FeedforwardNeuralNetwork.construct 1 [] 1 identityOptions [1] (fun _ => 0)

/-- A 1-input, 0-hidden, 2-output Identity network whose two connections have
weights 1 and 2 in construction order (`connectTo` pops from the end of the
queue `[2, 1]`). -/
def exNet12 : Network :=
  FeedforwardNeuralNetwork.construct 1 [] 2 identityOptions [2, 1] (fun _ => 0)

/-- The state of `exNet1` after one successful forward pass: its activations
are non-zero, making the reset performed by a subsequent failing `predict`
observable. -/
def exNet1Fed : Network := (exNet1.predict mZero [1]).2

deriving instance DecidableEq for Except

/-- Layers rebuilt from the forward backbone by a reset. -/
def resetOfBackboneF (b : List (ActivationFunction × List (ℚ × List Connection))) :
    List Layer :=
  b.map (fun x =>
    { neurons := x.2.map (fun y =>
        { input := 0, activation := 0, delta := y.1, connections := y.2 }),
      activationFunction := x.1 })

/-- The updated output layer of a successful backward pass. -/
def outputUpdated (m : MathPrimitives) (out : Layer) (desired : List ℚ) : Layer :=
  let ns := List.zipWith (fun n d => OutputNeuron.updateDelta m out.activationFunction n d)
    out.neurons desired
  { out with neurons := ns }

/-- What survives of an activation function after a serialization round trip:
only the constructor name, so the ReLU leak parameter resets to `0`. -/
def ActivationFunction.stripParameter : ActivationFunction → ActivationFunction
  | .RectifiedLinearUnit _ => .RectifiedLinearUnit 0
  | af => af

-- Further concrete networks for witnesses.

/-- A 1-input, one-hidden-neuron, 1-output Identity network with weights 2
(input to hidden) and 3 (hidden to output). -/
def exNetH : Network :=
  FeedforwardNeuralNetwork.construct 1 [1] 1 identityOptions [3, 2] (fun _ => 0)

/-- A network whose hidden and output layers use a leaky
`RectifiedLinearUnit` activation with the non-zero leak parameter 1. -/
def exNetRelu : Network :=
  FeedforwardNeuralNetwork.construct 1 [1] 1
    { seed := none, learningRate := none,
      hiddenLayerActivationFunction := some (.RectifiedLinearUnit 1),
      outputLayerActivationFunction := some (.RectifiedLinearUnit 1) }
    [3, 2] (fun _ => 0)

-- Helper lemmas: projections factor through the backbones, and each engine
-- operation preserves the backbone it does not touch.

theorem list_map_ext {α β : Type} {f g : α → β} (h : ∀ a, f a = g a) :
    ∀ l : List α, l.map f = l.map g := by
  intro l
  induction l with
  | nil => rfl
  | cons a t ih => simp [h a, ih]

theorem reset_factor (net : Network) :
    net.reset = { layers := resetOfBackboneF net.backboneF,
                  learningRate := net.learningRate, seed := net.seed } := by
  simp [Network.reset, resetOfBackboneF, Network.backboneF, List.map_map,
    Function.comp, Layer.reset, Layer.backboneF, Neuron.reset, Neuron.backboneF]

theorem reset_eq_of_backboneF {net1 net2 : Network} (hb : net1.backboneF = net2.backboneF)
    (hl : net1.learningRate = net2.learningRate) (hs : net1.seed = net2.seed) :
    net1.reset = net2.reset := by
  rw [reset_factor net1, reset_factor net2, hb, hl, hs]

theorem connData_factor (net : Network) :
    net.connData = net.backboneF.map (fun x => x.2.map (fun y =>
      y.2.map (fun c => (c.weight, c.weightUpdatePending)))) := by
  simp [Network.connData, Network.backboneF, List.map_map, Function.comp,
    Layer.backboneF, Neuron.backboneF]

theorem deltaData_factor_backboneF (net : Network) :
    net.deltaData = net.backboneF.map (fun x => x.2.map (fun y => y.1)) := by
  simp [Network.deltaData, Network.backboneF, List.map_map, Function.comp,
    Layer.backboneF, Neuron.backboneF]

theorem afData_factor_backboneF (net : Network) :
    net.afData = net.backboneF.map (fun x => x.1) := by
  simp [Network.afData, Network.backboneF, List.map_map, Function.comp, Layer.backboneF]

theorem afData_factor_backboneB (net : Network) :
    net.afData = net.backboneB.map (fun x => x.1) := by
  simp [Network.afData, Network.backboneB, List.map_map, Function.comp, Layer.backboneB]

theorem afData_factor_scalarData (net : Network) :
    net.afData = net.scalarData.map (fun x => x.1) := by
  simp [Network.afData, Network.scalarData, List.map_map, Function.comp, Layer.scalarData]

theorem connData_factor_backboneB (net : Network) :
    net.connData = net.backboneB.map (fun x => x.2.map (fun y =>
      y.2.2.map (fun c => (c.weight, c.weightUpdatePending)))) := by
  simp [Network.connData, Network.backboneB, List.map_map, Function.comp,
    Layer.backboneB, Neuron.backboneB]

theorem weightData_factor_connData (net : Network) :
    net.weightData = net.connData.map (fun x => x.map (fun y => y.map (fun c => c.1))) := by
  simp [Network.weightData, Network.connData, List.map_map, Function.comp]

theorem pendingAllZero_factor_connData (net : Network) :
    net.pendingAllZero = net.connData.all (fun x => x.all (fun y => y.all (fun c => c.2 == 0))) := by
  simp only [Network.pendingAllZero, Network.connData]
  induction net.layers with
  | nil => rfl
  | cons l t ih =>
      simp only [List.all_cons, List.map_cons, ih]
      congr 1
      induction l.neurons with
      | nil => rfl
      | cons n t2 ih2 =>
          simp only [List.all_cons, List.map_cons, ih2]
          congr 1
          induction n.connections with
          | nil => rfl
          | cons c t3 ih3 => simp only [List.all_cons, List.map_cons, ih3]

theorem deltaData_factor_scalarData (net : Network) :
    net.deltaData = net.scalarData.map (fun x => x.2.map (fun y => y.2.2)) := by
  simp [Network.deltaData, Network.scalarData, List.map_map, Function.comp,
    Layer.scalarData, Neuron.scalarFields]

theorem activationData_factor_scalarData (net : Network) :
    net.activationData = net.scalarData.map (fun x => x.2.map (fun y => y.2.1)) := by
  simp [Network.activationData, Network.scalarData, List.map_map, Function.comp,
    Layer.scalarData, Neuron.scalarFields]

theorem reset_backboneF (net : Network) : net.reset.backboneF = net.backboneF := by
  simp [Network.reset, Network.backboneF, Layer.reset, Layer.backboneF,
    Neuron.reset, Neuron.backboneF, List.map_map, Function.comp]

theorem feedTargets_backboneF (a : ℚ) (cs : List Connection) (ts : List Neuron) :
    (feedTargets a cs ts).map Neuron.backboneF = ts.map Neuron.backboneF := by
  induction cs generalizing ts with
  | nil => cases ts <;> rfl
  | cons c cs ih =>
      cases ts with
      | nil => rfl
      | cons t ts => simp [feedTargets, ih, Neuron.feed, Neuron.backboneF]

theorem feedInputs_backboneF (ns : List Neuron) (vs : List ℚ) :
    (feedInputs ns vs).map Neuron.backboneF = ns.map Neuron.backboneF := by
  induction ns generalizing vs with
  | nil => rfl
  | cons n ns ih =>
      cases vs with
      | nil => rfl
      | cons v vs => simp [feedInputs, ih, Neuron.feed, Neuron.backboneF]

theorem propagateNeurons_backboneF (m : MathPrimitives) (af : ActivationFunction)
    (ns ts : List Neuron) :
    (propagateNeurons m af ns ts).1.map Neuron.backboneF = ns.map Neuron.backboneF ∧
    (propagateNeurons m af ns ts).2.map Neuron.backboneF = ts.map Neuron.backboneF := by
  induction ns generalizing ts with
  | nil => simp [propagateNeurons]
  | cons n ns ih =>
      simp only [propagateNeurons]
      refine ⟨?_, ?_⟩
      · simp only [List.map_cons]
        rw [(ih _).1]
        simp [Neuron.propagate, Neuron.backboneF]
      · rw [(ih _).2]
        simp [Neuron.propagate]
        exact feedTargets_backboneF _ _ _

theorem propagateLayers_backboneF (m : MathPrimitives) (l : Layer) (rest : List Layer) :
    (propagateLayers m l rest).map Layer.backboneF = (l :: rest).map Layer.backboneF := by
  induction rest generalizing l with
  | nil =>
      simp [propagateLayers, Layer.propagateAllNeurons, Layer.backboneF,
        (propagateNeurons_backboneF m l.activationFunction l.neurons []).1]
  | cons l2 rest ih =>
      simp only [propagateLayers, List.map_cons]
      rw [ih]
      simp only [List.map_cons, Layer.propagateAllNeurons, Layer.backboneF]
      refine congrArg₂ _ ?_ (congrArg₂ _ ?_ rfl)
      · exact congrArg _ (propagateNeurons_backboneF m l.activationFunction l.neurons l2.neurons).1
      · exact congrArg _ (propagateNeurons_backboneF m l.activationFunction l.neurons l2.neurons).2

theorem feedAfterReset_backboneF (m : MathPrimitives) (net : Network) (input : List ℚ) :
    ((net.feedAfterReset m input).1).backboneF = net.backboneF := by
  simp only [Network.feedAfterReset]
  split
  · rfl
  · split
    · rfl
    · next l0 rest heq =>
        simp only [Network.backboneF, heq, List.map_cons]
        rw [propagateLayers_backboneF]
        simp only [List.map_cons, Layer.backboneF]
        rw [feedInputs_backboneF]

theorem feedAfterReset_learningRate (m : MathPrimitives) (net : Network) (input : List ℚ) :
    ((net.feedAfterReset m input).1).learningRate = net.learningRate := by
  simp only [Network.feedAfterReset]
  split
  · rfl
  · split <;> rfl

theorem feedAfterReset_seed (m : MathPrimitives) (net : Network) (input : List ℚ) :
    ((net.feedAfterReset m input).1).seed = net.seed := by
  simp only [Network.feedAfterReset]
  split
  · rfl
  · split <;> rfl

theorem feed_backboneF (m : MathPrimitives) (net : Network) (input : List ℚ) :
    ((net.feed m input).1).backboneF = net.backboneF := by
  rw [Network.feed, feedAfterReset_backboneF, reset_backboneF]

theorem feed_learningRate (m : MathPrimitives) (net : Network) (input : List ℚ) :
    ((net.feed m input).1).learningRate = net.learningRate := by
  rw [Network.feed, feedAfterReset_learningRate]
  rfl

theorem feed_seed (m : MathPrimitives) (net : Network) (input : List ℚ) :
    ((net.feed m input).1).seed = net.seed := by
  rw [Network.feed, feedAfterReset_seed]
  rfl

theorem feed_connData (m : MathPrimitives) (net : Network) (input : List ℚ) :
    ((net.feed m input).1).connData = net.connData := by
  rw [connData_factor, connData_factor, feed_backboneF]

theorem feed_deltaData (m : MathPrimitives) (net : Network) (input : List ℚ) :
    ((net.feed m input).1).deltaData = net.deltaData := by
  rw [deltaData_factor_backboneF, deltaData_factor_backboneF, feed_backboneF]

theorem feed_afData (m : MathPrimitives) (net : Network) (input : List ℚ) :
    ((net.feed m input).1).afData = net.afData := by
  rw [afData_factor_backboneF, afData_factor_backboneF, feed_backboneF]

/-- The forward pass depends on the pre-state only through its reset: two
networks with the same reset feed identically. -/
theorem feed_congr (m : MathPrimitives) {net1 net2 : Network} (h : net1.reset = net2.reset)
    (input : List ℚ) : net1.feed m input = net2.feed m input := by
  rw [Network.feed, Network.feed, h]

theorem zipWith_outputDelta_backboneB (m : MathPrimitives) (af : ActivationFunction)
    (ns : List Neuron) (ds : List ℚ) :
    (List.zipWith (fun n d => OutputNeuron.updateDelta m af n d) ns ds).map Neuron.backboneB =
      (ns.map Neuron.backboneB).take ds.length := by
  induction ns generalizing ds with
  | nil => simp
  | cons n ns ih =>
      cases ds with
      | nil => simp
      | cons d ds => exact congrArg₂ List.cons rfl (ih ds)

theorem OutputLayer.updateDeltasOut_backboneB (m : MathPrimitives) (l : Layer)
    (desired : List ℚ) :
    ((OutputLayer.updateDeltas m l desired).1).backboneB = l.backboneB := by
  simp only [OutputLayer.updateDeltas]
  split
  · rfl
  · next h =>
      simp only [Layer.backboneB, zipWith_outputDelta_backboneB]
      rw [not_ne_iff] at h
      rw [h]
      simp [Layer.size, List.take_length]

theorem Layer.updateDeltasPlain_backboneB (m : MathPrimitives) (l : Layer) (next : List Neuron) :
    (l.updateDeltas m next).backboneB = l.backboneB := by
  simp [Layer.updateDeltas, Layer.backboneB, List.map_map, Function.comp,
    Neuron.updateDelta, Neuron.backboneB]

theorem updateDeltasBackwards_backboneB (m : MathPrimitives) (ls : List Layer) (next : Layer) :
    (updateDeltasBackwards m ls next).map Layer.backboneB = ls.map Layer.backboneB := by
  induction ls with
  | nil => rfl
  | cons l rest ih => simp [updateDeltasBackwards, ih, Layer.updateDeltasPlain_backboneB]

theorem backpropagate_backboneB (m : MathPrimitives) (net : Network) (desired : List ℚ) :
    ((net.backpropagate m desired).1).backboneB = net.backboneB := by
  simp only [Network.backpropagate]
  split
  · rfl
  · next out hlast =>
      split
      · rfl
      · next out2 hupd =>
          have hout2 : out2.backboneB = out.backboneB := by
            have := OutputLayer.updateDeltasOut_backboneB m out desired
            rw [hupd] at this
            exact this
          split
          · next hdrop =>
              have hne : net.layers ≠ [] := by
                intro h
                rw [h] at hlast
                simp at hlast
              have hrec : net.layers.dropLast ++ [out] = net.layers := by
                have hget := List.getLast?_eq_getLast net.layers hne
                rw [hlast] at hget
                have : out = net.layers.getLast hne := by
                  injection hget
                rw [this]
                exact List.dropLast_append_getLast hne
              rw [hdrop] at hrec
              simp only [Network.backboneB, List.nil_append] at hrec ⊢
              rw [← hrec]
              simp [hout2]
          · next l0 hidden hdrop =>
              have hne : net.layers ≠ [] := by
                intro h
                rw [h] at hlast
                simp at hlast
              have hrec : net.layers.dropLast ++ [out] = net.layers := by
                have hget := List.getLast?_eq_getLast net.layers hne
                rw [hlast] at hget
                have : out = net.layers.getLast hne := by
                  injection hget
                rw [this]
                exact List.dropLast_append_getLast hne
              rw [hdrop] at hrec
              simp only [Network.backboneB] at hrec ⊢
              rw [← hrec]
              simp [updateDeltasBackwards_backboneB, hout2]

theorem backpropagate_connData (m : MathPrimitives) (net : Network) (desired : List ℚ) :
    ((net.backpropagate m desired).1).connData = net.connData := by
  rw [connData_factor_backboneB, connData_factor_backboneB, backpropagate_backboneB]

theorem backpropagate_afData (m : MathPrimitives) (net : Network) (desired : List ℚ) :
    ((net.backpropagate m desired).1).afData = net.afData := by
  rw [afData_factor_backboneB, afData_factor_backboneB, backpropagate_backboneB]

theorem backpropagate_learningRate (m : MathPrimitives) (net : Network) (desired : List ℚ) :
    ((net.backpropagate m desired).1).learningRate = net.learningRate := by
  simp only [Network.backpropagate]
  split
  · rfl
  · split
    · rfl
    · split <;> rfl

theorem backpropagate_seed (m : MathPrimitives) (net : Network) (desired : List ℚ) :
    ((net.backpropagate m desired).1).seed = net.seed := by
  simp only [Network.backpropagate]
  split
  · rfl
  · split
    · rfl
    · split <;> rfl

-- Weight updates and releases preserve the neuron scalar fields.

theorem Layer.updateWeightsInLayer_scalarData (lr : ℚ) (b : Bool) (l : Layer)
    (next : List Neuron) :
    (l.updateWeightsInLayer lr b next).scalarData = l.scalarData := by
  simp [Layer.updateWeightsInLayer, Layer.scalarData, List.map_map, Function.comp,
    Neuron.updateWeightsAtConnections, Neuron.scalarFields]

theorem updateWeightsLayers_scalarData (lr : ℚ) (b : Bool) (ls : List Layer) :
    (updateWeightsLayers lr b ls).map Layer.scalarData = ls.map Layer.scalarData := by
  induction ls with
  | nil => rfl
  | cons l tail ih =>
      cases tail with
      | nil => rfl
      | cons l2 rest =>
          simp only [updateWeightsLayers, List.map_cons]
          rw [Layer.updateWeightsInLayer_scalarData]
          exact congrArg _ ih

theorem updateWeightsInNetwork_scalarData (net : Network) (b : Bool) :
    (net.updateWeightsInNetwork b).scalarData = net.scalarData := by
  simp only [Network.updateWeightsInNetwork, Network.scalarData]
  exact updateWeightsLayers_scalarData _ _ _

theorem updateConnectionWeights_false_weights (lr a : ℚ) (cs : List Connection)
    (ts : List Neuron) :
    (updateConnectionWeights lr false a cs ts).map Connection.weight =
      cs.map Connection.weight := by
  induction cs generalizing ts with
  | nil => rfl
  | cons c cs ih =>
      cases ts with
      | nil => rfl
      | cons t ts => simp [updateConnectionWeights, ih, Connection.updateWeight]

theorem Layer.updateWeightsInLayer_false_weights (lr : ℚ) (l : Layer) (next : List Neuron) :
    (l.updateWeightsInLayer lr false next).neurons.map (fun n =>
      n.connections.map Connection.weight) =
    l.neurons.map (fun n => n.connections.map Connection.weight) := by
  simp [Layer.updateWeightsInLayer, List.map_map, Function.comp,
    Neuron.updateWeightsAtConnections, updateConnectionWeights_false_weights]

theorem updateWeightsLayers_false_weightData (lr : ℚ) (ls : List Layer) :
    (updateWeightsLayers lr false ls).map (fun l => l.neurons.map (fun n =>
      n.connections.map Connection.weight)) =
    ls.map (fun l => l.neurons.map (fun n => n.connections.map Connection.weight)) := by
  induction ls with
  | nil => rfl
  | cons l tail ih =>
      cases tail with
      | nil => rfl
      | cons l2 rest =>
          simp only [updateWeightsLayers, List.map_cons]
          rw [Layer.updateWeightsInLayer_false_weights]
          exact congrArg _ ih

theorem updateWeightsInNetwork_false_weightData (net : Network) :
    (net.updateWeightsInNetwork false).weightData = net.weightData := by
  simp only [Network.updateWeightsInNetwork, Network.weightData]
  exact updateWeightsLayers_false_weightData _ _

theorem updateWeightsInNetwork_learningRate (net : Network) (b : Bool) :
    (net.updateWeightsInNetwork b).learningRate = net.learningRate := rfl

theorem updateWeightsInNetwork_seed (net : Network) (b : Bool) :
    (net.updateWeightsInNetwork b).seed = net.seed := rfl

theorem Layer.releaseWeightUpdatesInLayer_scalarData (l : Layer) :
    l.releaseWeightUpdatesInLayer.scalarData = l.scalarData := by
  simp [Layer.releaseWeightUpdatesInLayer, Layer.scalarData, List.map_map, Function.comp,
    Neuron.scalarFields]

theorem releaseLayers_scalarData (ls : List Layer) :
    (releaseLayers ls).map Layer.scalarData = ls.map Layer.scalarData := by
  induction ls with
  | nil => rfl
  | cons l tail ih =>
      cases tail with
      | nil => rfl
      | cons l2 rest =>
          simp only [releaseLayers, List.map_cons]
          rw [Layer.releaseWeightUpdatesInLayer_scalarData]
          exact congrArg _ ih

theorem releaseWeightUpdatesInNetwork_scalarData (net : Network) :
    net.releaseWeightUpdatesInNetwork.scalarData = net.scalarData := by
  simp only [Network.releaseWeightUpdatesInNetwork, Network.scalarData]
  exact releaseLayers_scalarData _

-- Equivalence of an immediate update with a deferred update followed by a
-- release, on states whose pending accumulators are all zero.

theorem Connection.release_of_pendingZero {c : Connection}
    (h : c.weightUpdatePending = 0) : c.releaseWeightUpdates = c := by
  cases c
  simp only [Connection.releaseWeightUpdates] at *
  simp_all

theorem Connection.update_true_eq_release_false {c : Connection}
    (h : c.weightUpdatePending = 0) (u : ℚ) :
    c.updateWeight u true = (c.updateWeight u false).releaseWeightUpdates := by
  cases c
  simp only [Connection.updateWeight, Connection.releaseWeightUpdates] at *
  simp_all

theorem map_release_of_pendingZero (cs : List Connection)
    (h : ∀ c ∈ cs, c.weightUpdatePending = 0) :
    cs.map Connection.releaseWeightUpdates = cs := by
  induction cs with
  | nil => rfl
  | cons c cs ih =>
      simp only [List.map_cons]
      rw [Connection.release_of_pendingZero (h c (List.mem_cons_self c cs)),
        ih (fun x hx => h x (List.mem_cons_of_mem c hx))]

theorem updateConnectionWeights_true_eq (lr a : ℚ) (cs : List Connection) (ts : List Neuron)
    (h : ∀ c ∈ cs, c.weightUpdatePending = 0) :
    updateConnectionWeights lr true a cs ts =
      (updateConnectionWeights lr false a cs ts).map Connection.releaseWeightUpdates := by
  induction cs generalizing ts with
  | nil => rfl
  | cons c cs ih =>
      cases ts with
      | nil =>
          simp only [updateConnectionWeights]
          exact (map_release_of_pendingZero _ h).symm
      | cons t ts =>
          simp only [updateConnectionWeights, List.map_cons]
          rw [Connection.update_true_eq_release_false (h c (List.mem_cons_self c cs)),
            ih ts (fun x hx => h x (List.mem_cons_of_mem c hx))]

theorem Neuron.updateNeuron_true_eq (lr : ℚ) (next : List Neuron) (n : Neuron)
    (h : ∀ c ∈ n.connections, c.weightUpdatePending = 0) :
    n.updateWeightsAtConnections lr true next =
      { n.updateWeightsAtConnections lr false next with
        connections :=
          (n.updateWeightsAtConnections lr false next).connections.map
            Connection.releaseWeightUpdates } := by
  simp only [Neuron.updateWeightsAtConnections]
  rw [updateConnectionWeights_true_eq lr n.activation n.connections next h]

theorem Layer.updateLayer_true_eq (lr : ℚ) (next : List Neuron) (l : Layer)
    (h : ∀ n ∈ l.neurons, ∀ c ∈ n.connections, c.weightUpdatePending = 0) :
    l.updateWeightsInLayer lr true next =
      (l.updateWeightsInLayer lr false next).releaseWeightUpdatesInLayer := by
  simp only [Layer.updateWeightsInLayer, Layer.releaseWeightUpdatesInLayer, List.map_map]
  congr 1
  refine List.map_congr_left (fun n hn => ?_)
  exact Neuron.updateNeuron_true_eq lr next n (h n hn)

theorem updateWeightsLayers_true_eq (lr : ℚ) (ls : List Layer)
    (h : ∀ l ∈ ls, ∀ n ∈ l.neurons, ∀ c ∈ n.connections, c.weightUpdatePending = 0) :
    updateWeightsLayers lr true ls = releaseLayers (updateWeightsLayers lr false ls) := by
  induction ls with
  | nil => rfl
  | cons l tail ih =>
      cases tail with
      | nil => rfl
      | cons l2 rest =>
          have hhead := Layer.updateLayer_true_eq lr l2.neurons l (h l (List.mem_cons_self l _))
          have htail := ih (fun x hx => h x (List.mem_cons_of_mem l hx))
          cases rest with
          | nil =>
              simp only [updateWeightsLayers, releaseLayers]
              rw [hhead]
          | cons l3 rest2 =>
              simp only [updateWeightsLayers, releaseLayers] at htail ⊢
              rw [hhead, htail]

theorem updateWeightsInNetwork_true_eq (net : Network)
    (h : ∀ l ∈ net.layers, ∀ n ∈ l.neurons, ∀ c ∈ n.connections, c.weightUpdatePending = 0) :
    net.updateWeightsInNetwork true =
      (net.updateWeightsInNetwork false).releaseWeightUpdatesInNetwork := by
  simp only [Network.updateWeightsInNetwork, Network.releaseWeightUpdatesInNetwork]
  rw [updateWeightsLayers_true_eq net.learningRate net.layers h]

/-- The Boolean `pendingAllZero` coincides with the member-wise statement. -/
theorem pendingAllZero_iff (net : Network) :
    net.pendingAllZero = true ↔
      ∀ l ∈ net.layers, ∀ n ∈ l.neurons, ∀ c ∈ n.connections, c.weightUpdatePending = 0 := by
  simp [Network.pendingAllZero, List.all_eq_true]

theorem weightData_eq_of_connData {net1 net2 : Network} (h : net1.connData = net2.connData) :
    net1.weightData = net2.weightData := by
  rw [weightData_factor_connData, weightData_factor_connData, h]

theorem pendingAllZero_eq_of_connData {net1 net2 : Network} (h : net1.connData = net2.connData) :
    net1.pendingAllZero = net2.pendingAllZero := by
  rw [pendingAllZero_factor_connData, pendingAllZero_factor_connData, h]

theorem feed_pendingAllZero (m : MathPrimitives) (net : Network) (input : List ℚ) :
    ((net.feed m input).1).pendingAllZero = net.pendingAllZero :=
  pendingAllZero_eq_of_connData (feed_connData m net input)

theorem backpropagate_pendingAllZero (m : MathPrimitives) (net : Network) (desired : List ℚ) :
    ((net.backpropagate m desired).1).pendingAllZero = net.pendingAllZero :=
  pendingAllZero_eq_of_connData (backpropagate_connData m net desired)

theorem updateWeightsInNetwork_afData (net : Network) (b : Bool) :
    (net.updateWeightsInNetwork b).afData = net.afData := by
  rw [afData_factor_scalarData, afData_factor_scalarData, updateWeightsInNetwork_scalarData]

theorem releaseWeightUpdatesInNetwork_afData (net : Network) :
    net.releaseWeightUpdatesInNetwork.afData = net.afData := by
  rw [afData_factor_scalarData, afData_factor_scalarData, releaseWeightUpdatesInNetwork_scalarData]

theorem predict_snd (m : MathPrimitives) (net : Network) (input : List ℚ) :
    (net.predict m input).2 = (net.feed m input).1 := by
  simp only [Network.predict]
  rcases net.feed m input with ⟨net1, err⟩
  cases err <;> rfl

theorem predict_afData (m : MathPrimitives) (net : Network) (input : List ℚ) :
    ((net.predict m input).2).afData = net.afData := by
  rw [predict_snd, feed_afData]

theorem train_afData (m : MathPrimitives) (net : Network) (input desired : List ℚ) :
    ((net.train m input desired).2).afData = net.afData := by
  simp only [Network.train]
  rcases hfd : net.feed m input with ⟨net1, err1⟩
  have h1 : net1.afData = net.afData := by
    have := feed_afData m net input
    rw [hfd] at this
    exact this
  cases err1 with
  | some e => exact h1
  | none =>
      dsimp only
      rcases hbp : net1.backpropagate m desired with ⟨net2, err2⟩
      have h2 : net2.afData = net1.afData := by
        have := backpropagate_afData m net1 desired
        rw [hbp] at this
        exact this
      cases err2 with
      | some e => exact h2.trans h1
      | none =>
          dsimp only
          exact (updateWeightsInNetwork_afData net2 true).trans (h2.trans h1)

theorem trainBatchPairsLoop_weightData (m : MathPrimitives)
    (pairs : List (List ℚ × List ℚ)) (acc : ℚ) (net : Network) :
    ((Network.trainBatchPairsLoop m pairs acc net).2).weightData = net.weightData := by
  induction pairs generalizing acc net with
  | nil => rfl
  | cons pr rest ih =>
      obtain ⟨i, d⟩ := pr
      simp only [Network.trainBatchPairsLoop]
      rcases hfd : net.feed m i with ⟨net1, err1⟩
      have h1 : net1.weightData = net.weightData := by
        have := feed_connData m net i
        rw [hfd] at this
        exact weightData_eq_of_connData this
      cases err1 with
      | some e => exact h1
      | none =>
          dsimp only
          rcases hbp : net1.backpropagate m d with ⟨net2, err2⟩
          have h2 : net2.weightData = net1.weightData := by
            have := backpropagate_connData m net1 d
            rw [hbp] at this
            exact weightData_eq_of_connData this
          cases err2 with
          | some e => exact h2.trans h1
          | none =>
              dsimp only
              rw [ih]
              exact (updateWeightsInNetwork_false_weightData net2).trans (h2.trans h1)

theorem trainBatchPairsLoop_afData (m : MathPrimitives)
    (pairs : List (List ℚ × List ℚ)) (acc : ℚ) (net : Network) :
    ((Network.trainBatchPairsLoop m pairs acc net).2).afData = net.afData := by
  induction pairs generalizing acc net with
  | nil => rfl
  | cons pr rest ih =>
      obtain ⟨i, d⟩ := pr
      simp only [Network.trainBatchPairsLoop]
      rcases hfd : net.feed m i with ⟨net1, err1⟩
      have h1 : net1.afData = net.afData := by
        have := feed_afData m net i
        rw [hfd] at this
        exact this
      cases err1 with
      | some e => exact h1
      | none =>
          dsimp only
          rcases hbp : net1.backpropagate m d with ⟨net2, err2⟩
          have h2 : net2.afData = net1.afData := by
            have := backpropagate_afData m net1 d
            rw [hbp] at this
            exact this
          cases err2 with
          | some e => exact h2.trans h1
          | none =>
              dsimp only
              rw [ih]
              exact (updateWeightsInNetwork_afData net2 false).trans (h2.trans h1)

theorem trainBatchGo_afData (m : MathPrimitives) (pairs : List (List ℚ × List ℚ))
    (np os : ℕ) (th : ℚ) (fuel : ℕ) (err : Option ℚ) (net : Network) :
    ((Network.trainBatchGo m pairs np os th fuel err net).2).afData = net.afData := by
  induction fuel generalizing err net with
  | zero => rfl
  | succ fuel ih =>
      simp only [Network.trainBatchGo]
      split
      · rcases hpl : Network.trainBatchPairsLoop m pairs 0 net with ⟨r, net1⟩
        have h1 : net1.afData = net.afData := by
          have := trainBatchPairsLoop_afData m pairs 0 net
          rw [hpl] at this
          exact this
        cases r with
        | error e => exact h1
        | ok acc =>
            dsimp only
            rw [ih]
            exact (releaseWeightUpdatesInNetwork_afData net1).trans h1
      · rfl

theorem trainBatch_afData (m : MathPrimitives) (net : Network)
    (inputs desireds : List (List ℚ)) (iterOpt : Option ℕ) (thOpt : Option ℚ) :
    ((net.trainBatch m inputs desireds iterOpt thOpt).2).afData = net.afData := by
  simp only [Network.trainBatch]
  split
  · rfl
  · exact trainBatchGo_afData m _ _ _ _ _ _ net

-- Construction lemmas: layer activation functions and sizes.

theorem connectLayerPair_length (prng : ℕ → ℚ) (ns : List Neuron) (tc : ℕ) (st : WeightState) :
    ((connectLayerPair prng ns tc st).1).length = ns.length := by
  induction ns generalizing st with
  | nil => rfl
  | cons n rest ih => simp [connectLayerPair, ih]

theorem createConnectionsLayers_afs (prng : ℕ → ℚ) (ls : List Layer) (st : WeightState) :
    (createConnectionsLayers prng ls st).map Layer.activationFunction =
      ls.map Layer.activationFunction := by
  induction ls generalizing st with
  | nil => rfl
  | cons l tail ih =>
      cases tail with
      | nil => rfl
      | cons l2 rest =>
          simp only [createConnectionsLayers, List.map_cons]
          rw [ih]
          simp

theorem createConnectionsLayers_sizes (prng : ℕ → ℚ) (ls : List Layer) (st : WeightState) :
    (createConnectionsLayers prng ls st).map Layer.size = ls.map Layer.size := by
  induction ls generalizing st with
  | nil => rfl
  | cons l tail ih =>
      cases tail with
      | nil => rfl
      | cons l2 rest =>
          simp only [createConnectionsLayers, List.map_cons]
          rw [ih]
          simp [Layer.size, connectLayerPair_length]

theorem construct_afData (inN : ℕ) (hNs : List ℕ) (outN : ℕ) (opts : Options)
    (preW : List ℚ) (prng : ℕ → ℚ) :
    (FeedforwardNeuralNetwork.construct inN hNs outN opts preW prng).afData =
      .Identity ::
        hNs.map (fun _ => opts.hiddenLayerActivationFunction.getD .HyperbolicTangent) ++
        [opts.outputLayerActivationFunction.getD .HyperbolicTangent] := by
  simp only [FeedforwardNeuralNetwork.construct, Network.afData]
  rw [createConnectionsLayers_afs]
  simp only [List.map_cons, List.map_append, List.map_map]
  refine congrArg₂ List.cons rfl ?_
  refine congrArg₂ (fun (a b : List ActivationFunction) => a ++ b) ?_ rfl
  exact list_map_ext (fun k => rfl) hNs

theorem map_size_freshLayer (af : ActivationFunction) (hNs : List ℕ) :
    hNs.map (fun k => Layer.size (freshLayer k af)) = hNs := by
  induction hNs with
  | nil => rfl
  | cons k rest ih => simp [freshLayer, Layer.size, ih]

theorem construct_sizes (inN : ℕ) (hNs : List ℕ) (outN : ℕ) (opts : Options)
    (preW : List ℚ) (prng : ℕ → ℚ) :
    (FeedforwardNeuralNetwork.construct inN hNs outN opts preW prng).layers.map Layer.size =
      inN :: hNs ++ [outN] := by
  simp only [FeedforwardNeuralNetwork.construct]
  rw [createConnectionsLayers_sizes]
  simp only [List.map_cons, List.map_append, List.map_map]
  refine congrArg₂ List.cons ?_ ?_
  · simp [freshLayer, Layer.size]
  · refine congrArg₂ (fun (a b : List ℕ) => a ++ b) ?_ ?_
    · exact map_size_freshLayer _ hNs
    · simp [freshLayer, Layer.size]

-- List indexing helpers.

theorem getD_append_le {α : Type} (xs : List α) (y : α) (i : ℕ) (d : α) (h : i ≤ xs.length) :
    (xs ++ [y]).getD i d = xs.getD i y := by
  induction xs generalizing i with
  | nil =>
      cases i with
      | zero => rfl
      | succ i => exact absurd h (by simp)
  | cons x xs ih =>
      cases i with
      | zero => rfl
      | succ i =>
          simp only [List.cons_append, List.getD_cons_succ]
          exact ih i (Nat.le_of_succ_le_succ h)

theorem map_const_getD {α β : Type} (xs : List α) (c : β) (i : ℕ) (d : β)
    (h : i < xs.length) :
    (xs.map (fun _ => c)).getD i d = c := by
  induction xs generalizing i with
  | nil => exact absurd h (by simp)
  | cons x xs ih =>
      cases i with
      | zero => rfl
      | succ i =>
          simp only [List.map_cons, List.getD_cons_succ]
          exact ih i (Nat.lt_of_succ_lt_succ h)

-- Step lemmas for the trainBatch iteration loop.

theorem trainBatchGo_zero (m : MathPrimitives) (pairs : List (List ℚ × List ℚ))
    (np os : ℕ) (th : ℚ) (err : Option ℚ) (net : Network) :
    Network.trainBatchGo m pairs np os th 0 err net = (.ok err, net) := rfl

theorem trainBatchGo_succ (m : MathPrimitives) (pairs : List (List ℚ × List ℚ))
    (np os : ℕ) (th : ℚ) (fuel : ℕ) (err : Option ℚ) (net : Network) :
    Network.trainBatchGo m pairs np os th (fuel + 1) err net =
      if gtThreshold err th then
        match Network.trainBatchPairsLoop m pairs 0 net with
        | (.error e, net1) => (.error e, net1)
        | (.ok acc, net1) =>
            Network.trainBatchGo m pairs np os th fuel
              (some (acc / ((np : ℚ) * (os : ℚ)))) net1.releaseWeightUpdatesInNetwork
      else (.ok err, net) := rfl

-- Characterisation of a successful backward pass.

theorem updateDeltasBackwards_length (m : MathPrimitives) (ls : List Layer) (next : Layer) :
    (updateDeltasBackwards m ls next).length = ls.length := by
  induction ls with
  | nil => rfl
  | cons l rest ih => simp [updateDeltasBackwards, ih]

theorem headD_eq_getD_zero {α : Type} (xs : List α) (d : α) : xs.headD d = xs.getD 0 d := by
  cases xs <;> rfl

theorem updateDeltasBackwards_getD (m : MathPrimitives) (ls : List Layer) (next : Layer)
    (i : ℕ) (hi : i < ls.length) :
    (updateDeltasBackwards m ls next).getD i emptyLayer =
      (ls.getD i emptyLayer).updateDeltas m
        (((updateDeltasBackwards m ls next).getD (i + 1) next)).neurons := by
  induction ls generalizing i with
  | nil => exact absurd hi (by simp)
  | cons l rest ih =>
      cases i with
      | zero =>
          simp only [updateDeltasBackwards, List.getD_cons_zero, List.getD_cons_succ]
          rw [headD_eq_getD_zero]
      | succ i =>
          simp only [updateDeltasBackwards, List.getD_cons_succ]
          exact ih i (Nat.lt_of_succ_lt_succ hi)

theorem backpropagate_ok (m : MathPrimitives) (net : Network) (desired : List ℚ)
    (l0 out : Layer) (hidden : List Layer)
    (hL : net.layers = l0 :: hidden ++ [out]) (hd : desired.length = out.size) :
    net.backpropagate m desired =
      ({ net with layers := l0 ::
          updateDeltasBackwards m hidden (outputUpdated m out desired) ++
          [outputUpdated m out desired] }, none) := by
  have hlast : net.layers.getLast? = some out := by
    rw [hL]
    show ((l0 :: hidden) ++ [out]).getLast? = some out
    exact List.getLast?_concat _
  have hdrop : net.layers.dropLast = l0 :: hidden := by
    rw [hL]
    show ((l0 :: hidden) ++ [out]).dropLast = l0 :: hidden
    exact List.dropLast_concat
  have hupd : OutputLayer.updateDeltas m out desired = (outputUpdated m out desired, none) := by
    simp only [OutputLayer.updateDeltas, outputUpdated]
    rw [hd]
    simp
  simp only [Network.backpropagate]
  rw [hlast]
  dsimp only
  rw [hupd]
  dsimp only
  rw [hdrop]

-- Characterisation of fromJson on an explicitly decomposed snapshot.

theorem fromJson_ok (prng : ℕ → ℚ) (jl0 jlast : LayerJson) (jmid : List LayerJson)
    (lr : ℚ) (sd : Option ℕ) (haf oaf : ActivationFunction)
    (hh : createActivationFunctionFromName
        (if jmid.length > 0 then
          (jmid.headD { neurons := [], activationFunction := "" }).activationFunction
        else "Identity") = .ok haf)
    (ho : createActivationFunctionFromName jlast.activationFunction = .ok oaf) :
    FeedforwardNeuralNetwork.fromJson prng
        { layers := jl0 :: jmid ++ [jlast], learningRate := lr, seed := sd } =
      .ok (FeedforwardNeuralNetwork.construct jl0.neurons.length
        (jmid.map (fun l => l.neurons.length)) jlast.neurons.length
        { seed := sd, learningRate := some lr,
          hiddenLayerActivationFunction := some haf,
          outputLayerActivationFunction := some oaf }
        (createWeightsListFromLayer jl0 ++
          (jmid.map createWeightsListFromLayer).flatten ++
          createWeightsListFromLayer jlast) prng) := by
  have hlast : (jmid ++ [jlast]).getLast? = some jlast := List.getLast?_concat _
  have hdrop : (jmid ++ [jlast]).dropLast = jmid := List.dropLast_concat
  simp only [FeedforwardNeuralNetwork.fromJson]
  split
  · next heq => simp at heq
  · next inputLayer rest heq =>
      injection heq with h1 h2
      subst h1
      subst h2
      simp only [List.append_eq]
      rw [hlast]
      dsimp only
      rw [hdrop, hh]
      dsimp only
      rw [ho]

theorem reset_connData (net : Network) : net.reset.connData = net.connData := by
  rw [connData_factor, connData_factor, reset_backboneF]

theorem reset_deltaData (net : Network) : net.reset.deltaData = net.deltaData := by
  rw [deltaData_factor_backboneF, deltaData_factor_backboneF, reset_backboneF]

theorem reset_inputLayerSize (net : Network) :
    net.reset.inputLayerSize = net.inputLayerSize := by
  simp only [Network.reset, Network.inputLayerSize]
  cases net.layers with
  | nil => rfl
  | cons l rest => simp [Layer.reset, Layer.size]

theorem predict_congr_of_feed (m : MathPrimitives) {net1 net2 : Network} (input : List ℚ)
    (h : net1.feed m input = net2.feed m input) :
    net1.predict m input = net2.predict m input := by
  simp only [Network.predict]
  rw [h]

theorem predict_idem (m : MathPrimitives) (net : Network) (input : List ℚ) :
    ((net.predict m input).2).predict m input = net.predict m input := by
  have hreset : ((net.predict m input).2).reset = net.reset := by
    rw [predict_snd]
    exact reset_eq_of_backboneF (feed_backboneF m net input) (feed_learningRate m net input)
      (feed_seed m net input)
  exact predict_congr_of_feed m input (feed_congr m hreset input)

theorem getD_of_length_le {α : Type} (xs : List α) (i : ℕ) (d : α) (h : xs.length ≤ i) :
    xs.getD i d = d := by
  induction xs generalizing i with
  | nil => cases i <;> rfl
  | cons x xs ih =>
      cases i with
      | zero => exact absurd h (by simp)
      | succ i => exact ih i (Nat.le_of_succ_le_succ h)

theorem getD_irrel {α : Type} (xs : List α) (i : ℕ) (d1 d2 : α) (h : i < xs.length) :
    xs.getD i d1 = xs.getD i d2 := by
  induction xs generalizing i with
  | nil => exact absurd h (by simp)
  | cons x xs ih =>
      cases i with
      | zero => rfl
      | succ i => exact ih i (Nat.lt_of_succ_lt_succ h)

theorem zipWith_outputDelta_delta (m : MathPrimitives) (af : ActivationFunction)
    (ns : List Neuron) (ds : List ℚ) :
    (List.zipWith (fun n d => OutputNeuron.updateDelta m af n d) ns ds).map Neuron.delta =
      List.zipWith (fun n d => af.evaluateDerivative m n.input * (d - n.activation)) ns ds := by
  induction ns generalizing ds with
  | nil => simp
  | cons n ns ih =>
      cases ds with
      | nil => simp
      | cons d ds => exact congrArg₂ List.cons rfl (ih ds)

theorem Layer.updateDeltas_deltas (m : MathPrimitives) (l : Layer) (next : List Neuron) :
    (l.updateDeltas m next).neurons.map Neuron.delta =
      l.neurons.map (fun n =>
        l.activationFunction.evaluateDerivative m n.input * n.calculateError next) := by
  simp [Layer.updateDeltas, List.map_map, Function.comp, Neuron.updateDelta]

theorem createActivationFunctionFromName_toJSON (af : ActivationFunction) :
    createActivationFunctionFromName af.toJSON = .ok af.stripParameter := by
  cases af <;> rfl

-- The claims.

/-- C2 (amended): `trainBatch` with `iterations = 0` behaves exactly like
`trainBatch` with `iterations = 1` (and like the omitted parameter), because
of the JS defaulting `iterations = iterations || 1`: the falsy `0` selects
the default, so one iteration always runs (the error starts at positive
infinity), weights are updated and released once, and the returned value is
that iteration's mean squared error rather than positive infinity. -/
theorem C2_trainBatch_zero_iterations (m : MathPrimitives) (net : Network)
    (inputs desireds : List (List ℚ)) (thOpt : Option ℚ) :
    net.trainBatch m inputs desireds (some 0) thOpt =
      net.trainBatch m inputs desireds (some 1) thOpt ∧
    net.trainBatch m inputs desireds (some 0) thOpt =
      net.trainBatch m inputs desireds none thOpt :=
  ⟨rfl, rfl⟩

/-- C3 (amended): `predict` on an input whose length differs from the input
layer size fails with the size-mismatch error and changes no connection
weight, no pending update and no delta — but the network IS reset first
(every neuron's input and activation is zeroed), because `_feed` calls
`this.reset()` before validating the input size. -/
theorem C3_sizeMismatch_noWeightMutation (m : MathPrimitives) (net : Network)
    (input : List ℚ) (h : input.length ≠ net.inputLayerSize) :
    (net.predict m input).1 = .error (sizeMismatchInput net.inputLayerSize input.length) ∧
    (net.predict m input).2 = net.reset ∧
    (net.predict m input).2.connData = net.connData ∧
    (net.predict m input).2.deltaData = net.deltaData := by
  have hguard : input.length ≠ (net.reset).inputLayerSize := by
    rw [reset_inputLayerSize]
    exact h
  have hfd : net.feed m input =
      (net.reset, some (sizeMismatchInput net.inputLayerSize input.length)) := by
    simp only [Network.feed, Network.feedAfterReset]
    rw [if_pos hguard, reset_inputLayerSize]
  refine ⟨?_, ?_, ?_, ?_⟩
  · simp only [Network.predict]
    rw [hfd]
  · rw [predict_snd, hfd]
  · rw [predict_snd, hfd]
    exact reset_connData net
  · rw [predict_snd, hfd]
    exact reset_deltaData net

/-- C4: deferred-update staging.  First, `updateWeight(addend, false)` leaves
the weight unchanged and only accumulates the addend into the pending
update.  Second, the per-pattern loop of a `trainBatch` iteration never
changes any connection weight (all pairs are processed against the weights
from the start of the iteration).  Third, the iteration commits the staged
updates exactly through the single `releaseWeightUpdatesInNetwork()` call at
its end: the iteration step is literally the pairs loop followed by the
release. -/
theorem C4_deferredStaging :
    (∀ (c : Connection) (addend : ℚ),
      (c.updateWeight addend false).weight = c.weight ∧
      (c.updateWeight addend false).weightUpdatePending = c.weightUpdatePending + addend) ∧
    (∀ (m : MathPrimitives) (pairs : List (List ℚ × List ℚ)) (acc : ℚ) (net : Network),
      ((Network.trainBatchPairsLoop m pairs acc net).2).weightData = net.weightData) ∧
    (∀ (m : MathPrimitives) (pairs : List (List ℚ × List ℚ)) (np os : ℕ) (th : ℚ)
      (fuel : ℕ) (err : Option ℚ) (net net1 : Network) (acc : ℚ),
      gtThreshold err th = true →
      Network.trainBatchPairsLoop m pairs 0 net = (.ok acc, net1) →
      Network.trainBatchGo m pairs np os th (fuel + 1) err net =
        Network.trainBatchGo m pairs np os th fuel
          (some (acc / ((np : ℚ) * (os : ℚ)))) net1.releaseWeightUpdatesInNetwork) := by
  refine ⟨?_, trainBatchPairsLoop_weightData, ?_⟩
  · intro c addend
    constructor <;> simp [Connection.updateWeight]
  · intro m pairs np os th fuel err net net1 acc hg hpl
    rw [trainBatchGo_succ, if_pos hg, hpl]

/-- C6: the input layer (layer index 0) always uses the Identity activation
function, whatever hidden/output activation options are configured, and no
operation of the engine (prediction, online training, batch training) ever
changes any layer's activation function. -/
theorem C6_inputLayerIdentity :
    (∀ (inN : ℕ) (hNs : List ℕ) (outN : ℕ) (opts : Options) (preW : List ℚ)
      (prng : ℕ → ℚ),
      (FeedforwardNeuralNetwork.construct inN hNs outN opts preW prng).afData.getD 0
        .HyperbolicTangent = .Identity) ∧
    (∀ (m : MathPrimitives) (net : Network) (input : List ℚ),
      ((net.predict m input).2).afData = net.afData) ∧
    (∀ (m : MathPrimitives) (net : Network) (input desired : List ℚ),
      ((net.train m input desired).2).afData = net.afData) ∧
    (∀ (m : MathPrimitives) (net : Network) (inputs desireds : List (List ℚ))
      (iterOpt : Option ℕ) (thOpt : Option ℚ),
      ((net.trainBatch m inputs desireds iterOpt thOpt).2).afData = net.afData) := by
  refine ⟨?_, predict_afData, train_afData, trainBatch_afData⟩
  intro inN hNs outN opts preW prng
  rw [construct_afData]
  rfl

/-- C8: inference is pure with respect to the learned state: `predict` leaves
every connection weight, every pending update and every neuron delta
unchanged, and a second `predict` with the same input returns the same
result as the first. -/
theorem C8_predict_pure (m : MathPrimitives) (net : Network) (input : List ℚ)
    (h : input.length = net.inputLayerSize) :
    ((net.predict m input).2).connData = net.connData ∧
    ((net.predict m input).2).deltaData = net.deltaData ∧
    (((net.predict m input).2).predict m input).1 = (net.predict m input).1 := by
  refine ⟨?_, ?_, ?_⟩
  · rw [predict_snd]
    exact feed_connData m net input
  · rw [predict_snd]
    exact feed_deltaData m net input
  · rw [predict_idem]

/-- C9: a constructor call without a `hiddenLayerActivationFunction` option
(or without an `outputLayerActivationFunction` option) silently uses the
`HyperbolicTangent` activation for every hidden layer (resp. for the output
layer) — which is neither `Identity` nor an error. -/
theorem C9_default_activation (inN : ℕ) (hNs : List ℕ) (outN : ℕ) (opts : Options)
    (preW : List ℚ) (prng : ℕ → ℚ)
    (hh : opts.hiddenLayerActivationFunction = none)
    (ho : opts.outputLayerActivationFunction = none) :
    (∀ i < hNs.length,
      (FeedforwardNeuralNetwork.construct inN hNs outN opts preW prng).afData.getD (i + 1)
        .Identity = .HyperbolicTangent) ∧
    (FeedforwardNeuralNetwork.construct inN hNs outN opts preW prng).afData.getLast? =
      some .HyperbolicTangent ∧
    ActivationFunction.HyperbolicTangent ≠ .Identity := by
  rw [construct_afData, hh, ho]
  simp only [Option.getD_none]
  refine ⟨?_, ?_, by decide⟩
  · intro i hi
    show (hNs.map (fun _ => ActivationFunction.HyperbolicTangent) ++
        [ActivationFunction.HyperbolicTangent]).getD i ActivationFunction.Identity =
      ActivationFunction.HyperbolicTangent
    rw [getD_append_le _ _ _ _ (by simpa using Nat.le_of_lt hi)]
    exact map_const_getD hNs _ i _ hi
  · show ((ActivationFunction.Identity ::
        hNs.map (fun _ => ActivationFunction.HyperbolicTangent)) ++
        [ActivationFunction.HyperbolicTangent]).getLast? =
      some ActivationFunction.HyperbolicTangent
    exact List.getLast?_concat _

/-- C5: training online on a single pair produces exactly the same final
connection weights as one `trainBatch` iteration over that single pair
(default iteration count, arbitrary error threshold — the first iteration
always runs because the error starts at positive infinity), starting from
the same network, whose pending updates are zero as they are after every
construction and every completed training call. -/
theorem C5_online_batch_equiv (m : MathPrimitives) (net : Network)
    (input desired : List ℚ) (thOpt : Option ℚ)
    (hp : net.pendingAllZero = true)
    (hi : input.length = net.inputLayerSize)
    (hd : desired.length = net.outputLayer.size) :
    ((net.trainBatch m [input] [desired] none thOpt).2).weightData =
      ((net.train m input desired).2).weightData := by
  simp only [Network.trainBatch]
  rw [if_neg (by simp)]
  simp only [jsOrNat, List.zip_cons_cons, List.zip_nil_right]
  rw [show (1 : ℕ) = 0 + 1 from rfl, trainBatchGo_succ,
    if_pos (show gtThreshold none (jsOrRat thOpt (5 / 1000)) = true from rfl)]
  simp only [Network.trainBatchPairsLoop, Network.train]
  rcases hfd : net.feed m input with ⟨net1, err1⟩
  have hp1 : net1.pendingAllZero = true := by
    have := feed_pendingAllZero m net input
    rw [hfd] at this
    exact this.trans hp
  cases err1 with
  | some e => rfl
  | none =>
      dsimp only
      rcases hbp : net1.backpropagate m desired with ⟨net2, err2⟩
      have hp2 : net2.pendingAllZero = true := by
        have := backpropagate_pendingAllZero m net1 desired
        rw [hbp] at this
        exact this.trans hp1
      cases err2 with
      | some e => rfl
      | none =>
          dsimp only
          rw [trainBatchGo_zero]
          dsimp only
          rw [updateWeightsInNetwork_true_eq net2 ((pendingAllZero_iff net2).mp hp2)]

/-- C7: a successful backward pass (a) throws nothing, (b) leaves the input
layer untouched, (c) gives every output neuron the delta
`derivative(input) * (desired - activation)`, and (d) gives every hidden
neuron, processed in descending layer order, the delta
`derivative(input) * calculateError(next)`, where `next` is the FOLLOWING
layer of the RESULT network — i.e. its deltas have already been updated when
the hidden layer reads them; `calculateError` sums
`target.delta * connection.weight` over the outgoing connections. -/
theorem C7_backpropagation_order (m : MathPrimitives) (net : Network) (desired : List ℚ)
    (l0 out : Layer) (hidden : List Layer)
    (hL : net.layers = l0 :: hidden ++ [out])
    (hd : desired.length = out.size) :
    (net.backpropagate m desired).2 = none ∧
    ((net.backpropagate m desired).1).layers.getD 0 emptyLayer = l0 ∧
    (((net.backpropagate m desired).1).layers.getD (hidden.length + 1)
        emptyLayer).neurons.map Neuron.delta =
      List.zipWith (fun n d =>
        out.activationFunction.evaluateDerivative m n.input * (d - n.activation))
        out.neurons desired ∧
    ∀ i < hidden.length,
      (((net.backpropagate m desired).1).layers.getD (i + 1) emptyLayer).neurons.map
          Neuron.delta =
        (hidden.getD i emptyLayer).neurons.map (fun n =>
          (hidden.getD i emptyLayer).activationFunction.evaluateDerivative m n.input *
            n.calculateError
              ((((net.backpropagate m desired).1).layers.getD (i + 2) emptyLayer)).neurons) := by
  rw [backpropagate_ok m net desired l0 out hidden hL hd]
  have hlen : (updateDeltasBackwards m hidden (outputUpdated m out desired)).length =
      hidden.length := updateDeltasBackwards_length m hidden (outputUpdated m out desired)
  refine ⟨rfl, rfl, ?_, ?_⟩
  · show ((updateDeltasBackwards m hidden (outputUpdated m out desired) ++
        [outputUpdated m out desired]).getD hidden.length emptyLayer).neurons.map
      Neuron.delta = _
    rw [getD_append_le _ _ _ _ (by rw [hlen])]
    rw [getD_of_length_le _ _ _ (by rw [hlen])]
    simp only [outputUpdated]
    exact zipWith_outputDelta_delta m out.activationFunction out.neurons desired
  · intro i hi
    have hiU : i < (updateDeltasBackwards m hidden (outputUpdated m out desired)).length := by
      rw [hlen]
      exact hi
    have hnext : (l0 :: updateDeltasBackwards m hidden (outputUpdated m out desired) ++
        [outputUpdated m out desired]).getD (i + 2) emptyLayer =
        (updateDeltasBackwards m hidden (outputUpdated m out desired)).getD (i + 1)
          (outputUpdated m out desired) := by
      show (updateDeltasBackwards m hidden (outputUpdated m out desired) ++
        [outputUpdated m out desired]).getD (i + 1) emptyLayer = _
      exact getD_append_le _ _ _ _ (by rw [hlen]; exact hi)
    rw [hnext]
    show ((updateDeltasBackwards m hidden (outputUpdated m out desired) ++
        [outputUpdated m out desired]).getD i emptyLayer).neurons.map Neuron.delta = _
    rw [getD_append_le _ _ _ _ (Nat.le_of_lt hiU), getD_irrel _ _ _ emptyLayer hiU]
    rw [updateDeltasBackwards_getD m hidden (outputUpdated m out desired) i
      (by rw [← hlen]; exact hiU)]
    exact Layer.updateDeltas_deltas m (hidden.getD i emptyLayer) _

theorem map_const_map {α β γ : Type} (f : α → β) (c : γ) (xs : List α) :
    (xs.map f).map (fun _ => c) = xs.map (fun _ => c) := by
  induction xs with
  | nil => rfl
  | cons x xs ih => simp only [List.map_cons, ih]


/-- C10: serialization records an activation function only by its class name
and `fromJson` reconstructs `RectifiedLinearUnit` with no argument, so a
network whose hidden and output layers use the leaky ReLU with a non-zero
parameter `p` restores to a network whose hidden and output layers all use
`RectifiedLinearUnit 0` — a different activation function: the leak
parameter is silently lost by the round trip. -/
theorem C10_reluLeakLost (prng : ℕ → ℚ) (net : Network) (l0 lastL : Layer)
    (mid : List Layer) (p : ℚ)
    (hL : net.layers = l0 :: mid ++ [lastL])
    (hp : p ≠ 0)
    (hmid : ∀ l ∈ mid, l.activationFunction = .RectifiedLinearUnit p)
    (hout : lastL.activationFunction = .RectifiedLinearUnit p) :
    (FeedforwardNeuralNetwork.fromJson prng net.toJSON).map Network.afData =
      .ok (.Identity :: mid.map (fun _ => ActivationFunction.RectifiedLinearUnit 0) ++
        [.RectifiedLinearUnit 0]) ∧
    ActivationFunction.RectifiedLinearUnit 0 ≠ .RectifiedLinearUnit p := by
  have hjson : net.toJSON =
      { layers := Layer.toJSON l0 :: mid.map Layer.toJSON ++ [Layer.toJSON lastL],
        learningRate := net.learningRate, seed := net.seed } := by
    simp [Network.toJSON, hL]
  have hnameOut : createActivationFunctionFromName (Layer.toJSON lastL).activationFunction =
      .ok (.RectifiedLinearUnit 0) := by
    show createActivationFunctionFromName lastL.activationFunction.toJSON = _
    rw [hout]
    rfl
  refine ⟨?_, ?_⟩
  · cases mid with
    | nil =>
        rw [hjson]
        simp only [List.map_nil]
        rw [fromJson_ok prng (Layer.toJSON l0) (Layer.toJSON lastL) [] net.learningRate
          net.seed .Identity (.RectifiedLinearUnit 0) rfl hnameOut]
        simp [construct_afData, Except.map]
    | cons lh lt =>
        have hnameHid : createActivationFunctionFromName
            (if ((lh :: lt).map Layer.toJSON).length > 0 then
              (((lh :: lt).map Layer.toJSON).headD
                { neurons := [], activationFunction := "" }).activationFunction
            else "Identity") = .ok (.RectifiedLinearUnit 0) := by
          rw [if_pos (by simp)]
          show createActivationFunctionFromName lh.activationFunction.toJSON = _
          rw [hmid lh (List.mem_cons_self lh lt)]
          rfl
        rw [hjson]
        rw [fromJson_ok prng (Layer.toJSON l0) (Layer.toJSON lastL)
          ((lh :: lt).map Layer.toJSON) net.learningRate net.seed
          (.RectifiedLinearUnit 0) (.RectifiedLinearUnit 0) hnameHid hnameOut]
        simp [construct_afData, Except.map, List.replicate_succ]
        show List.map (fun _ => ActivationFunction.RectifiedLinearUnit 0) lt =
          List.replicate lt.length (ActivationFunction.RectifiedLinearUnit 0)
        simp
  · simp only [ne_eq, ActivationFunction.RectifiedLinearUnit.injEq]
    exact fun h2 => hp h2.symm

-- Concrete evaluation support: the engine definitions are unfolded by simp
-- when the counterexamples and witnesses below are checked on the small
-- example networks.

theorem replicate_one_eq {α : Type} (a : α) : List.replicate 1 a = [a] := rfl

theorem replicate_two_eq {α : Type} (a : α) : List.replicate 2 a = [a, a] := rfl

attribute [simp] replicate_one_eq replicate_two_eq Except.map

attribute [simp] ActivationFunction.evaluate ActivationFunction.evaluateDerivative
  ActivationFunction.toJSON createActivationFunctionFromName ActivationFunction.stripParameter
  Connection.updateWeight Connection.releaseWeightUpdates Connection.toJSON
  Neuron.reset Neuron.feed Neuron.propagate Neuron.calculateError Neuron.updateDelta
  Neuron.updateWeightsAtConnections Neuron.toJSON
  Layer.size Layer.reset Layer.propagateAllNeurons Layer.updateDeltas
  Layer.updateWeightsInLayer Layer.releaseWeightUpdatesInLayer Layer.toJSON
  OutputNeuron.updateDelta OutputLayer.updateDeltas OutputLayer.calculateSumSquaredError
  Network.reset Network.inputLayerSize Network.feedAfterReset Network.feed
  Network.outputLayer Network.getOutput Network.predict Network.backpropagate
  Network.updateWeightsInNetwork Network.releaseWeightUpdatesInNetwork
  Network.train Network.trainBatch Network.trainBatchPairsLoop Network.trainBatchGo
  Network.toJSON Network.weightData Network.connData Network.deltaData
  Network.activationData Network.inputData Network.afData Network.pendingAllZero
  feedTargets propagateNeurons propagateLayers feedInputs sizeMismatchInput
  sizeMismatchOutput countMismatchMsg jsOrRat jsOrNat jsOrSeed gtThreshold
  updateConnectionWeights updateWeightsLayers releaseLayers updateDeltasBackwards
  popWeight mkConnections connectLayerPair createConnectionsLayers freshNeuron freshLayer
  FeedforwardNeuralNetwork.construct FeedforwardNeuralNetwork.fromJson
  createWeightsListFromLayer emptyLayer mZero identityOptions exNet1 exNet12 exNet1Fed
  exNetH exNetRelu Options.hiddenLayerActivationFunction Options.outputLayerActivationFunction

/-- C1: the serialization round trip does NOT restore the weights weight for
weight.  `fromJson` flattens the connection weights left to right into
`Neuron.preDefinedWeights`, but `connectTo` consumes that queue with
`pop()`, i.e. from its END, so the reconstructed network receives the
weights in reversed construction order.  At the failing input — a 1-input,
2-output identity network with weights `[1, 2]` — the restored network has
weights `[2, 1]` and its prediction on `[1]` changes from `[1, 2]` to
`[2, 1]`, contradicting both the weight-for-weight and the behavioural
round-trip claim. -/
theorem C1_roundTrip_reversesWeights :
    exNet12.weightData = [[[1, 2]], [[], []]] ∧
    (FeedforwardNeuralNetwork.fromJson (fun _ => 0) exNet12.toJSON).map Network.weightData =
      .ok [[[2, 1]], [[], []]] ∧
    (exNet12.predict mZero [1]).1 = .ok [1, 2] ∧
    (FeedforwardNeuralNetwork.fromJson (fun _ => 0) exNet12.toJSON).map
      (fun r => (r.predict mZero [1]).1) = .ok (.ok [2, 1]) := by
  refine ⟨by norm_num, by norm_num, by norm_num, by norm_num⟩

/-- C2 (counterexample): `trainBatch` with `iterations = 0` does NOT return
positive infinity (`none`) and DOES change weights: on a 1-input, 1-output
identity network with weight 1, learning rate 0.3 and the single training
pair `([1], [0])` it returns the finite mean squared error `1` and commits
the weight change `1 - 0.3 = 0.7`, because `iterations || 1` treats the
falsy `0` as an absent parameter. -/
theorem C2_counterexample :
    (exNet1.trainBatch mZero [[1]] [[0]] (some 0) none).1 = .ok (some 1) ∧
    (exNet1.trainBatch mZero [[1]] [[0]] (some 0) none).2.weightData = [[[7 / 10]], [[]]] ∧
    exNet1.weightData = [[[1]], [[]]] := by
  refine ⟨by norm_num, by norm_num, by norm_num⟩

/-- C3 (counterexample): a `predict` call with a wrongly sized input throws
the size-mismatch error, but the network has been mutated before the check:
`_feed` calls `this.reset()` first, so inputs and activations are zeroed.
`exNet1Fed` holds the non-zero inputs and activations of a previous forward
pass and loses them in the failing call. -/
theorem C3_counterexample :
    (exNet1Fed.predict mZero [1, 2]).1 = .error (sizeMismatchInput 1 2) ∧
    (exNet1Fed.predict mZero [1, 2]).2.activationData ≠ exNet1Fed.activationData ∧
    (exNet1Fed.predict mZero [1, 2]).2.inputData ≠ exNet1Fed.inputData := by
  refine ⟨by norm_num, by norm_num, by norm_num⟩

/-- C3 witness: the amended statement applied to `exNet1` and the too-long
input `[1, 2]`. -/
theorem C3_witness :
    (exNet1.predict mZero [1, 2]).1 =
      .error (sizeMismatchInput exNet1.inputLayerSize [(1 : ℚ), 2].length) ∧
    (exNet1.predict mZero [1, 2]).2 = exNet1.reset ∧
    (exNet1.predict mZero [1, 2]).2.connData = exNet1.connData ∧
    (exNet1.predict mZero [1, 2]).2.deltaData = exNet1.deltaData :=
  C3_sizeMismatch_noWeightMutation mZero exNet1 [1, 2] (by simp)

/-- C4 witness: the three parts of the staging theorem instantiated at a
concrete connection, a concrete pattern list and the example network (the
training pair `([1], [1])` has zero error, so the per-pattern accumulator is
`0`). -/
theorem C4_witness :
    (((⟨1, 0⟩ : Connection).updateWeight 2 false).weight = (⟨1, 0⟩ : Connection).weight ∧
      ((⟨1, 0⟩ : Connection).updateWeight 2 false).weightUpdatePending =
        (⟨1, 0⟩ : Connection).weightUpdatePending + 2) ∧
    ((Network.trainBatchPairsLoop mZero [([1], [1])] 0 exNet1).2).weightData =
      exNet1.weightData ∧
    Network.trainBatchGo mZero [([1], [1])] 1 1 (5 / 1000) 1 none exNet1 =
      Network.trainBatchGo mZero [([1], [1])] 1 1 (5 / 1000) 0
        (some (0 / ((1 : ℚ) * (1 : ℚ))))
        ((Network.trainBatchPairsLoop mZero [([1], [1])] 0 exNet1).2).releaseWeightUpdatesInNetwork :=
  ⟨C4_deferredStaging.1 ⟨1, 0⟩ 2,
   C4_deferredStaging.2.1 mZero [([1], [1])] 0 exNet1,
   C4_deferredStaging.2.2 mZero [([1], [1])] 1 1 (5 / 1000) 0 none exNet1
     ((Network.trainBatchPairsLoop mZero [([1], [1])] 0 exNet1).2) 0 rfl (by simp)⟩

/-- C5 witness: online training and a single-pair batch iteration agree on
the example network `exNet1` with the training pair `([1], [0])`. -/
theorem C5_witness :
    ((exNet1.trainBatch mZero [[1]] [[0]] none none).2).weightData =
      ((exNet1.train mZero [1] [0]).2).weightData :=
  C5_online_batch_equiv mZero exNet1 [1] [0] none (by simp) (by simp) (by simp)

/-- C7 witness: the backward-pass characterisation applied to the network
`exNetH` (one hidden layer) and the desired output `[5]`, with the hidden
conjunct instantiated at layer index 1 (i = 0). -/
theorem C7_witness :
    (exNetH.backpropagate mZero [5]).2 = none ∧
    ((exNetH.backpropagate mZero [5]).1).layers.getD 0 emptyLayer =
      exNetH.layers.getD 0 emptyLayer ∧
    (((exNetH.backpropagate mZero [5]).1).layers.getD
        ([exNetH.layers.getD 1 emptyLayer].length + 1) emptyLayer).neurons.map Neuron.delta =
      List.zipWith (fun n d =>
        (exNetH.layers.getD 2 emptyLayer).activationFunction.evaluateDerivative mZero n.input *
          (d - n.activation))
        (exNetH.layers.getD 2 emptyLayer).neurons [5] ∧
    (((exNetH.backpropagate mZero [5]).1).layers.getD 1 emptyLayer).neurons.map
        Neuron.delta =
      ([exNetH.layers.getD 1 emptyLayer].getD 0 emptyLayer).neurons.map (fun n =>
        ([exNetH.layers.getD 1 emptyLayer].getD 0
            emptyLayer).activationFunction.evaluateDerivative mZero n.input *
          n.calculateError
            ((((exNetH.backpropagate mZero [5]).1).layers.getD 2 emptyLayer)).neurons) :=
  ⟨(C7_backpropagation_order mZero exNetH [5] (exNetH.layers.getD 0 emptyLayer)
      (exNetH.layers.getD 2 emptyLayer) [exNetH.layers.getD 1 emptyLayer] rfl (by simp)).1,
   (C7_backpropagation_order mZero exNetH [5] (exNetH.layers.getD 0 emptyLayer)
      (exNetH.layers.getD 2 emptyLayer) [exNetH.layers.getD 1 emptyLayer] rfl (by simp)).2.1,
   (C7_backpropagation_order mZero exNetH [5] (exNetH.layers.getD 0 emptyLayer)
      (exNetH.layers.getD 2 emptyLayer) [exNetH.layers.getD 1 emptyLayer] rfl (by simp)).2.2.1,
   (C7_backpropagation_order mZero exNetH [5] (exNetH.layers.getD 0 emptyLayer)
      (exNetH.layers.getD 2 emptyLayer) [exNetH.layers.getD 1 emptyLayer] rfl
      (by simp)).2.2.2 0 (by decide)⟩

/-- C8 witness: prediction purity on the example network `exNet1` with the
correctly sized input `[1]`. -/
theorem C8_witness :
    ((exNet1.predict mZero [1]).2).connData = exNet1.connData ∧
    ((exNet1.predict mZero [1]).2).deltaData = exNet1.deltaData ∧
    (((exNet1.predict mZero [1]).2).predict mZero [1]).1 = (exNet1.predict mZero [1]).1 :=
  C8_predict_pure mZero exNet1 [1] (by simp)

/-- C9 witness: a constructor call with an empty options bag defaults both
the hidden (layer index 1) and the output activation to the hyperbolic
tangent. -/
theorem C9_witness :
    (FeedforwardNeuralNetwork.construct 1 [1] 1 {} [] (fun _ => 0)).afData.getD 1
      .Identity = .HyperbolicTangent ∧
    (FeedforwardNeuralNetwork.construct 1 [1] 1 {} [] (fun _ => 0)).afData.getLast? =
      some .HyperbolicTangent ∧
    ActivationFunction.HyperbolicTangent ≠ .Identity :=
  ⟨(C9_default_activation 1 [1] 1 {} [] (fun _ => 0) rfl rfl).1 0 (by decide),
   (C9_default_activation 1 [1] 1 {} [] (fun _ => 0) rfl rfl).2.1,
   (C9_default_activation 1 [1] 1 {} [] (fun _ => 0) rfl rfl).2.2⟩

/-- C10 witness: the leak-loss theorem applied to `exNetRelu`, whose hidden
and output layers use the leaky ReLU with parameter `1`. -/
theorem C10_witness :
    (FeedforwardNeuralNetwork.fromJson (fun _ => 0) exNetRelu.toJSON).map Network.afData =
      .ok (.Identity ::
        [exNetRelu.layers.getD 1 emptyLayer].map
          (fun _ => ActivationFunction.RectifiedLinearUnit 0) ++
        [.RectifiedLinearUnit 0]) ∧
    ActivationFunction.RectifiedLinearUnit 0 ≠ .RectifiedLinearUnit 1 :=
  C10_reluLeakLost (fun _ => 0) exNetRelu (exNetRelu.layers.getD 0 emptyLayer)
    (exNetRelu.layers.getD 2 emptyLayer) [exNetRelu.layers.getD 1 emptyLayer] 1 rfl
    one_ne_zero
    (by
      intro l hl
      rw [List.mem_singleton] at hl
      subst hl
      rfl)
    rfl
